import Mathlib

/-!
Shallow embedding of the got-strategy-lab game engine (Rust sources under
src/engine/src/) and proofs about the claims of its specification.

Conventions of the embedding:
* machine integers (u8, i8, i16, u64, usize) become Nat or Int; the engine
  only ever uses saturating subtraction on unsigned values, which is Nat.sub;
* Vec becomes List; Vec::pop removes the LAST element;
* HashMap<K, V> becomes either a total function K -> V (houses, whose keys
  are fixed) or an association List (K x V) when the map is iterated;
* mutation of &mut GameState becomes explicit state passing;
* the ChaCha8 RNG used only to shuffle decks is abstracted by rngShuffle,
  a deterministic permutation stand-in (no claim depends on deck order);
* recursive calls of advance are modelled with an explicit fuel parameter;
  fuel 0 returns the state unchanged.
-/

namespace GoT

-- ── Enums (types.rs) ───────────────────────────────────────────────────

inductive HouseName where
  | Stark | Lannister | Baratheon | Greyjoy | Tyrell | Martell
deriving DecidableEq

/-- All six houses, in the order of types.rs HouseName::ALL. -/
def HouseName.ALL : List HouseName :=
  [.Stark, .Lannister, .Baratheon, .Greyjoy, .Tyrell, .Martell]

inductive UnitType where
  | Footman | Knight | Ship | SiegeEngine
deriving DecidableEq

/-- Base combat strength of a unit type (SiegeEngine is contextual: 4 when
attacking a castle or stronghold, handled in combat). -/
def UnitType.combat_strength : UnitType → Nat
  | .Footman => 1
  | .Knight => 2
  | .Ship => 1
  | .SiegeEngine => 0

/-- Mustering cost in points. -/
def UnitType.muster_cost : UnitType → Nat
  | .Footman => 1
  | .Knight => 2
  | .Ship => 1
  | .SiegeEngine => 2

inductive OrderType where
  | March | Raid | Support | Defense | ConsolidatePower
deriving DecidableEq

inductive AreaType where
  | Land | Sea | Port
deriving DecidableEq

inductive Phase where
  | Westeros | Planning | Action | Combat
deriving DecidableEq

inductive ActionSubPhase where
  | Raid | March | ConsolidatePower | Done
deriving DecidableEq

inductive Track where
  | IronThrone | Fiefdoms | KingsCourt
deriving DecidableEq

inductive CombatPhase where
  | Support | Cards | PreCombat | Resolution | PostCombat
deriving DecidableEq

inductive SupportChoice where
  | Attacker | Defender | None
deriving DecidableEq

inductive BiddingType where
  | IronThrone | Fiefdoms | KingsCourt | Wildling
deriving DecidableEq

/-- AreaId is a transparent index into the static AREAS table (the Rust
newtype AreaId(u8)). -/
abbrev AreaId := Nat

-- ── Unit / orders (types.rs) ───────────────────────────────────────────

structure Unit where
  unit_type : UnitType
  house : HouseName
  routed : Bool
deriving DecidableEq

structure OrderTokenDef where
  order_type : OrderType
  strength : Int
  star : Bool
deriving DecidableEq

structure Order where
  order_type : OrderType
  strength : Int
  star : Bool
  house : HouseName
  token_index : Nat
deriving DecidableEq

/-- The 15 order tokens, same for every house (types.rs ORDER_TOKENS). -/
def ORDER_TOKENS : List OrderTokenDef :=
  [ ⟨.March, -1, false⟩, ⟨.March, 0, false⟩, ⟨.March, 1, true⟩,
    ⟨.Defense, 1, false⟩, ⟨.Defense, 1, false⟩, ⟨.Defense, 2, true⟩,
    ⟨.Support, 0, false⟩, ⟨.Support, 0, false⟩, ⟨.Support, 1, true⟩,
    ⟨.Raid, 0, false⟩, ⟨.Raid, 0, false⟩, ⟨.Raid, 0, true⟩,
    ⟨.ConsolidatePower, 0, false⟩, ⟨.ConsolidatePower, 0, false⟩,
    ⟨.ConsolidatePower, 0, true⟩ ]

-- ── House cards (types.rs, cards.rs) ───────────────────────────────────

inductive HouseCardId where
  | EddardStark | RobbStark | GreatjonUmber | RooseBolton | TheBlackfish
  | SerRodrikCassel | CatelynStark
  | TywinLannister | SerGregorClegane | SerJaimeLannister | TheHound
  | TyrionLannister | SerKevanLannister | CerseiLannister
  | StannisBaratheon | RenlyBaratheon | BrienneOfTarth | SerDavosSeaworth
  | Melisandre | SalladhorSaan | Patchface
  | EuronCrowsEye | VictarionGreyjoy | BalonGreyjoy | TheonGreyjoy
  | AshaGreyjoy | DagmerCleftjaw | AeronDamphair
  | MaceTyrell | SerLorasTyrell | SerGarlanTyrell | RandyllTarly
  | MargaeryTyrell | AlesterFlorent | QueenOfThorns
  | TheRedViper | AreoHotah | ObaraSand | Darkstar | NymeriaSand
  | ArianneMartell | DoranMartell
deriving DecidableEq

structure HouseCard where
  id : HouseCardId
  house : HouseName
  strength : Nat
  swords : Nat
  fortifications : Nat
deriving DecidableEq

-- ── Westeros / wildling cards (types.rs) ───────────────────────────────

inductive WesterosCardType where
  | Supply | Mustering | AThroneOfBlades
  | ClashOfKings | GameOfThrones | DarkWingsDarkWords
  | WildlingAttack | PutToTheSword | SeaOfStorms | RainsOfAutumn
  | FeastForCrows | WebOfLies | StormOfSwords
  | WinterIsComing | LastDaysOfSummer
deriving DecidableEq

structure WesterosCard where
  deck : Nat
  card_type : WesterosCardType
  wildling_icon : Bool
deriving DecidableEq

inductive WildlingCardType where
  | AKingBeyondTheWall | CrowKillers | MammothRiders | MassingOnTheMilkwater
  | PreemptiveRaid | RattleshirtsRaiders | SilenceAtTheWall
  | SkinchangerScout | TheHordeDescends
deriving DecidableEq

structure WildlingCard where
  card_type : WildlingCardType
deriving DecidableEq

-- ── Supply table (types.rs) ────────────────────────────────────────────

/-- Max army sizes allowed for a given supply level (types.rs
supply_limits; the argument is clamped to 6, so the final arm of the Rust
match is unreachable there and covers exactly level 6 here). -/
def supply_limits (supply : Nat) : List Nat :=
  match Nat.min supply 6 with
  | 0 => [2, 2]
  | 1 => [3, 2]
  | 2 => [3, 2, 2]
  | 3 => [3, 2, 2, 2]
  | 4 => [3, 3, 2, 2]
  | 5 => [4, 3, 2, 2]
  | _ => [4, 3, 2, 2, 2]

-- ── Garrison (types.rs / setup.rs) ─────────────────────────────────────

/-- Garrison on an area. types.rs declares the owner as Option<HouseName>
with None meaning neutral, but setup.rs stores plain house values
(placeholders Baratheon / Stark for the neutral garrisons) and engine.rs
compares the owner directly against the defender, so the embedding follows
the two cited sources and uses a plain house. -/
structure Garrison where
  house : HouseName
  strength : Nat
deriving DecidableEq

-- ── Bidding / combat sub-states (types.rs) ─────────────────────────────

structure BiddingState where
  bidding_type : BiddingType
  bids : List (HouseName × Nat)
  current_track : Option Track
  remaining_tracks : List Track
  bid_order : List HouseName
  next_bidder_idx : Nat
deriving DecidableEq

structure CombatState where
  attacker : HouseName
  defender : HouseName
  area_id : AreaId
  attacking_units : List Unit
  defending_units : List Unit
  attacker_card : Option HouseCardId
  defender_card : Option HouseCardId
  attacker_strength : Int
  defender_strength : Int
  march_from_area : Option AreaId
  attacker_used_blade : Bool
  defender_used_blade : Bool
  support_decisions : List (AreaId × SupportChoice)
  phase : CombatPhase
  aeron_resolved : Bool
  tyrion_resolved : Bool
  pending_support_houses : List (AreaId × HouseName)
deriving DecidableEq

-- ── House profile (types.rs) ───────────────────────────────────────────

structure UnitPool where
  footmen : Nat
  knights : Nat
  ships : Nat
  siege_engines : Nat
deriving DecidableEq

def UnitPool.get (p : UnitPool) : UnitType → Nat
  | .Footman => p.footmen
  | .Knight => p.knights
  | .Ship => p.ships
  | .SiegeEngine => p.siege_engines

/-- Functional counterpart of UnitPool::get_mut followed by an update. -/
def UnitPool.setCount (p : UnitPool) (ut : UnitType) (n : Nat) : UnitPool :=
  match ut with
  | .Footman => { p with footmen := n }
  | .Knight => { p with knights := n }
  | .Ship => { p with ships := n }
  | .SiegeEngine => { p with siege_engines := n }

structure HouseProfile where
  name : HouseName
  iron_throne : Nat
  fiefdoms : Nat
  kings_court : Nat
  supply : Nat
  power : Nat
  available_units : UnitPool
  hand : List HouseCardId
  discards : List HouseCardId
  used_order_tokens : List Nat
deriving DecidableEq

-- ── Dynamic area state (types.rs) ──────────────────────────────────────

structure AreaState where
  units : List Unit
  order : Option Order
  house : Option HouseName
  blocked : Bool
deriving DecidableEq

def AreaState.default : AreaState :=
  { units := [], order := none, house := none, blocked := false }

-- ── Pending decisions (types.rs) ───────────────────────────────────────

structure MusterArea where
  area_id : AreaId
  points : Nat
deriving DecidableEq

inductive PendingDecision where
  | WesterosChoice (card_name : String) (chooser : HouseName) (options : List String)
  | SupportDeclaration (house : HouseName) (area_id : AreaId)
      (attacker : HouseName) (defender : HouseName)
  | TyrionReplace (opponent : HouseName)
  | AeronSwap (house : HouseName)
  | PatchfaceDiscard (opponent : HouseName) (visible_cards : List HouseCardId)
  | RobbRetreat (house : HouseName) (possible_areas : List AreaId)
  | Retreat (house : HouseName) (units : List Unit) (from_area : AreaId)
      (possible_areas : List AreaId)
  | Reconcile (house : HouseName) (area_id : AreaId) (current_size : Nat)
      (max_allowed : Nat)
  | Muster (house : HouseName) (areas : List MusterArea)
  | Bidding (house : HouseName) (bidding_type : BiddingType) (track : Option Track)
  | LeavePowerToken (house : HouseName) (area_id : AreaId)
  | UseValyrianBlade (house : HouseName)
  | PlaceOrders (house : HouseName)
  | ChooseRaid (house : HouseName) (from_area : AreaId) (valid_targets : List AreaId)
  | ChooseMarch (house : HouseName) (from_area : AreaId)
      (valid_destinations : List AreaId)
  | SelectHouseCard (house : HouseName) (available_cards : List HouseCardId)
  | MessengerRaven (house : HouseName)
  | WildlingPenaltyChoice (house : HouseName) (options : List String)
  | CerseiRemoveOrder (opponent : HouseName)
  | DoranChooseTrack (opponent : HouseName)
  | QueenOfThornsRemoveOrder (opponent : HouseName)
deriving DecidableEq

-- ── Game state (types.rs) ──────────────────────────────────────────────

structure GameState where
  round : Nat
  phase : Phase
  action_sub_phase : ActionSubPhase
  action_player_index : Nat
  houses : HouseName → HouseProfile
  areas : List AreaState
  turn_order : List HouseName
  wildling_threat : Nat
  garrisons : AreaId → Option Garrison
  valyrian_steel_blade_used : Bool
  messenger_raven_used : Bool
  westeros_deck_1 : List WesterosCard
  westeros_deck_2 : List WesterosCard
  westeros_deck_3 : List WesterosCard
  wildling_deck : List WildlingCard
  order_restrictions : List OrderType
  star_order_restrictions : List OrderType
  combat : Option CombatState
  bidding : Option BiddingState
  westeros_cards_drawn : List WesterosCard
  westeros_step : Nat
  muster_house_idx : Nat
  seed : Nat
  rng_counter : Nat
  pending : Option PendingDecision
  winner : Option HouseName
  playing_houses : List HouseName

def GameState.player_count (s : GameState) : Nat := s.playing_houses.length

def GameState.house (s : GameState) (h : HouseName) : HouseProfile := s.houses h

/-- Lookup of dynamic area state by id (GameState::area; the Rust indexing
panics out of range, never exercised with ids below NUM_AREAS). -/
def GameState.area (s : GameState) (id : AreaId) : AreaState :=
  s.areas.getD id AreaState.default

/-- Functional counterpart of GameState::area_mut followed by an update. -/
def GameState.setArea (s : GameState) (id : AreaId) (a : AreaState) : GameState :=
  { s with areas := s.areas.set id a }

/-- Functional counterpart of GameState::house_mut followed by an update. -/
def GameState.updateHouse (s : GameState) (h : HouseName)
    (f : HouseProfile → HouseProfile) : GameState :=
  { s with houses := fun h2 => if h2 = h then f (s.houses h) else s.houses h2 }

def GameState.current_action_player (s : GameState) : HouseName :=
  s.turn_order.getD s.action_player_index HouseName.Stark

end GoT

namespace GoT

-- ── Static map data (map.rs) ───────────────────────────────────────────

structure AreaDef where
  id : AreaId
  name : String
  area_type : AreaType
  castle : Bool
  stronghold : Bool
  supply_icons : Nat
  power_icons : Nat
  adjacent : List AreaId
  connected_land : Option AreaId
  connected_sea : Option AreaId
deriving DecidableEq

def AreaDef.muster_points (a : AreaDef) : Nat :=
  if a.stronghold then 2 else if a.castle then 1 else 0

def AreaDef.is_land (a : AreaDef) : Bool := a.area_type = AreaType.Land

def AreaDef.is_sea (a : AreaDef) : Bool := a.area_type = AreaType.Sea

def AreaDef.is_port (a : AreaDef) : Bool := a.area_type = AreaType.Port

def AreaDef.has_castle_or_stronghold (a : AreaDef) : Bool := a.castle || a.stronghold

-- Area id constants (map.rs); lands 0-37, seas 38-49, ports 50-58.

abbrev CASTLE_BLACK : AreaId := 0
abbrev KARHOLD : AreaId := 1
abbrev THE_STONY_SHORE : AreaId := 2
abbrev WINTERFELL : AreaId := 3
abbrev WHITE_HARBOR : AreaId := 4
abbrev WIDOWS_WATCH : AreaId := 5
abbrev MOAT_CAILIN : AreaId := 6
abbrev GREYWATER_WATCH : AreaId := 7
abbrev FLINTS_FINGER : AreaId := 8
abbrev SEAGARD : AreaId := 9
abbrev THE_TWINS : AreaId := 10
abbrev THE_FINGERS : AreaId := 11
abbrev MOUNTAINS_OF_THE_MOON : AreaId := 12
abbrev THE_EYRIE : AreaId := 13
abbrev RIVERRUN : AreaId := 14
abbrev LANNISPORT : AreaId := 15
abbrev STONEY_SEPT : AreaId := 16
abbrev SEAROAD_MARCHES : AreaId := 17
abbrev HARRENHAL : AreaId := 18
abbrev CRACKCLAW_POINT : AreaId := 19
abbrev KINGS_LANDING : AreaId := 20
abbrev BLACKWATER : AreaId := 21
abbrev KINGSWOOD : AreaId := 22
abbrev STORMS_END : AreaId := 23
abbrev HIGHGARDEN : AreaId := 24
abbrev THE_REACH : AreaId := 25
abbrev DORNISH_MARCHES : AreaId := 26
abbrev OLDTOWN : AreaId := 27
abbrev THREE_TOWERS : AreaId := 28
abbrev THE_BONEWAY : AreaId := 29
abbrev PRINCES_PASS : AreaId := 30
abbrev YRONWOOD : AreaId := 31
abbrev STARFALL : AreaId := 32
abbrev SALT_SHORE : AreaId := 33
abbrev SUNSPEAR : AreaId := 34
abbrev PYKE : AreaId := 35
abbrev DRAGONSTONE : AreaId := 36
abbrev THE_ARBOR : AreaId := 37
abbrev BAY_OF_ICE : AreaId := 38
abbrev THE_SHIVERING_SEA : AreaId := 39
abbrev SUNSET_SEA : AreaId := 40
abbrev IRONMANS_BAY : AreaId := 41
abbrev THE_GOLDEN_SOUND : AreaId := 42
abbrev THE_NARROW_SEA : AreaId := 43
abbrev BLACKWATER_BAY : AreaId := 44
abbrev SHIPBREAKER_BAY : AreaId := 45
abbrev REDWYNE_STRAITS : AreaId := 46
abbrev WEST_SUMMER_SEA : AreaId := 47
abbrev EAST_SUMMER_SEA : AreaId := 48
abbrev SEA_OF_DORNE : AreaId := 49
abbrev WINTERFELL_PORT : AreaId := 50
abbrev WHITE_HARBOR_PORT : AreaId := 51
abbrev PYKE_PORT : AreaId := 52
abbrev LANNISPORT_PORT : AreaId := 53
abbrev DRAGONSTONE_PORT : AreaId := 54
abbrev STORMS_END_PORT : AreaId := 55
abbrev HIGHGARDEN_PORT : AreaId := 56
abbrev OLDTOWN_PORT : AreaId := 57
abbrev SUNSPEAR_PORT : AreaId := 58

def NUM_AREAS : Nat := 59

/-- Constructor mirroring the land! macro of map.rs. -/
def landArea (name : String) (id : AreaId) (castle stronghold : Bool)
    (supply power : Nat) (adj : List AreaId) : AreaDef :=
  { id := id, name := name, area_type := .Land, castle := castle,
    stronghold := stronghold, supply_icons := supply, power_icons := power,
    adjacent := adj, connected_land := none, connected_sea := none }

/-- Constructor mirroring the sea! macro of map.rs. -/
def seaArea (name : String) (id : AreaId) (adj : List AreaId) : AreaDef :=
  { id := id, name := name, area_type := .Sea, castle := false,
    stronghold := false, supply_icons := 0, power_icons := 0,
    adjacent := adj, connected_land := none, connected_sea := none }

/-- Constructor mirroring the port! macro of map.rs. -/
def portArea (name : String) (id : AreaId) (land sea : AreaId) : AreaDef :=
  { id := id, name := name, area_type := .Port, castle := false,
    stronghold := false, supply_icons := 0, power_icons := 0,
    adjacent := [land, sea], connected_land := some land,
    connected_sea := some sea }

/-- The full static AREAS table of map.rs (59 entries, same order). -/
def AREAS : List AreaDef :=
  [ landArea "Castle Black" CASTLE_BLACK false false 0 1
      [WINTERFELL, KARHOLD, BAY_OF_ICE, THE_SHIVERING_SEA],
    landArea "Karhold" KARHOLD false false 0 1
      [CASTLE_BLACK, WINTERFELL, THE_SHIVERING_SEA],
    landArea "The Stony Shore" THE_STONY_SHORE false false 1 0
      [WINTERFELL, BAY_OF_ICE],
    landArea "Winterfell" WINTERFELL false true 1 1
      [CASTLE_BLACK, KARHOLD, THE_STONY_SHORE, WHITE_HARBOR, MOAT_CAILIN,
       BAY_OF_ICE, THE_SHIVERING_SEA],
    landArea "White Harbor" WHITE_HARBOR true false 0 0
      [WINTERFELL, MOAT_CAILIN, WIDOWS_WATCH, THE_NARROW_SEA, THE_SHIVERING_SEA],
    landArea "Widow's Watch" WIDOWS_WATCH false false 1 0
      [WHITE_HARBOR, THE_NARROW_SEA, THE_SHIVERING_SEA],
    landArea "Moat Cailin" MOAT_CAILIN true false 0 0
      [WINTERFELL, WHITE_HARBOR, GREYWATER_WATCH, SEAGARD, THE_TWINS,
       THE_NARROW_SEA],
    landArea "Greywater Watch" GREYWATER_WATCH false false 1 0
      [MOAT_CAILIN, SEAGARD, FLINTS_FINGER, BAY_OF_ICE, IRONMANS_BAY],
    landArea "Flint's Finger" FLINTS_FINGER true false 0 0
      [GREYWATER_WATCH, BAY_OF_ICE, IRONMANS_BAY, SUNSET_SEA],
    landArea "Seagard" SEAGARD false true 1 1
      [MOAT_CAILIN, GREYWATER_WATCH, THE_TWINS, RIVERRUN, IRONMANS_BAY],
    landArea "The Twins" THE_TWINS false false 0 1
      [MOAT_CAILIN, SEAGARD, THE_FINGERS, MOUNTAINS_OF_THE_MOON, THE_NARROW_SEA],
    landArea "The Fingers" THE_FINGERS false false 1 0
      [THE_TWINS, MOUNTAINS_OF_THE_MOON, THE_NARROW_SEA],
    landArea "The Mountains of the Moon" MOUNTAINS_OF_THE_MOON false false 1 0
      [THE_TWINS, THE_FINGERS, THE_EYRIE, CRACKCLAW_POINT, THE_NARROW_SEA],
    landArea "The Eyrie" THE_EYRIE true false 1 1
      [MOUNTAINS_OF_THE_MOON, THE_NARROW_SEA],
    landArea "Riverrun" RIVERRUN false true 1 1
      [SEAGARD, LANNISPORT, STONEY_SEPT, HARRENHAL, IRONMANS_BAY,
       THE_GOLDEN_SOUND],
    landArea "Lannisport" LANNISPORT false true 2 0
      [RIVERRUN, STONEY_SEPT, SEAROAD_MARCHES, THE_GOLDEN_SOUND],
    landArea "Stoney Sept" STONEY_SEPT false false 0 1
      [RIVERRUN, LANNISPORT, HARRENHAL, SEAROAD_MARCHES, BLACKWATER],
    landArea "Searoad Marches" SEAROAD_MARCHES false false 1 0
      [LANNISPORT, STONEY_SEPT, HIGHGARDEN, BLACKWATER, THE_REACH,
       SUNSET_SEA, THE_GOLDEN_SOUND, WEST_SUMMER_SEA],
    landArea "Harrenhal" HARRENHAL true false 0 1
      [RIVERRUN, STONEY_SEPT, CRACKCLAW_POINT, KINGS_LANDING],
    landArea "Crackclaw Point" CRACKCLAW_POINT true false 0 0
      [HARRENHAL, KINGS_LANDING, MOUNTAINS_OF_THE_MOON, BLACKWATER_BAY,
       SHIPBREAKER_BAY, THE_NARROW_SEA],
    landArea "King's Landing" KINGS_LANDING false true 0 2
      [HARRENHAL, CRACKCLAW_POINT, BLACKWATER, KINGSWOOD, THE_REACH,
       BLACKWATER_BAY],
    landArea "Blackwater" BLACKWATER false false 2 0
      [KINGS_LANDING, STONEY_SEPT, SEAROAD_MARCHES, CRACKCLAW_POINT,
       THE_REACH, KINGSWOOD, THE_BONEWAY, DORNISH_MARCHES],
    landArea "Kingswood" KINGSWOOD false false 1 1
      [KINGS_LANDING, BLACKWATER, STORMS_END, THE_BONEWAY, THE_REACH,
       BLACKWATER_BAY, SHIPBREAKER_BAY],
    landArea "Storm's End" STORMS_END true false 0 0
      [KINGSWOOD, THE_BONEWAY, EAST_SUMMER_SEA, SEA_OF_DORNE, SHIPBREAKER_BAY],
    landArea "Highgarden" HIGHGARDEN false true 2 0
      [SEAROAD_MARCHES, THE_REACH, DORNISH_MARCHES, OLDTOWN, REDWYNE_STRAITS,
       WEST_SUMMER_SEA],
    landArea "The Reach" THE_REACH true false 0 0
      [HIGHGARDEN, SEAROAD_MARCHES, BLACKWATER, KINGS_LANDING, KINGSWOOD,
       DORNISH_MARCHES, THE_BONEWAY, OLDTOWN],
    landArea "Dornish Marches" DORNISH_MARCHES false false 0 1
      [HIGHGARDEN, THE_REACH, BLACKWATER, THE_BONEWAY, PRINCES_PASS,
       OLDTOWN, THREE_TOWERS],
    landArea "Oldtown" OLDTOWN false true 0 0
      [HIGHGARDEN, THE_REACH, DORNISH_MARCHES, THREE_TOWERS, REDWYNE_STRAITS],
    landArea "Three Towers" THREE_TOWERS false false 1 0
      [OLDTOWN, DORNISH_MARCHES, PRINCES_PASS, REDWYNE_STRAITS, WEST_SUMMER_SEA],
    landArea "The Boneway" THE_BONEWAY false false 0 1
      [DORNISH_MARCHES, PRINCES_PASS, THE_REACH, KINGSWOOD, BLACKWATER,
       STORMS_END, YRONWOOD, SEA_OF_DORNE],
    landArea "Prince's Pass" PRINCES_PASS false false 1 1
      [DORNISH_MARCHES, THE_BONEWAY, THREE_TOWERS, STARFALL, YRONWOOD],
    landArea "Yronwood" YRONWOOD true false 0 0
      [PRINCES_PASS, THE_BONEWAY, STARFALL, SALT_SHORE, SUNSPEAR, SEA_OF_DORNE],
    landArea "Starfall" STARFALL true false 1 0
      [PRINCES_PASS, YRONWOOD, SALT_SHORE, EAST_SUMMER_SEA, WEST_SUMMER_SEA],
    landArea "Salt Shore" SALT_SHORE false false 1 0
      [YRONWOOD, STARFALL, SUNSPEAR, EAST_SUMMER_SEA],
    landArea "Sunspear" SUNSPEAR false true 1 1
      [YRONWOOD, SALT_SHORE, EAST_SUMMER_SEA, SEA_OF_DORNE],
    landArea "Pyke" PYKE false true 1 1
      [IRONMANS_BAY],
    landArea "Dragonstone" DRAGONSTONE false true 1 1
      [SHIPBREAKER_BAY],
    landArea "The Arbor" THE_ARBOR false false 0 1
      [REDWYNE_STRAITS, WEST_SUMMER_SEA],
    seaArea "Bay of Ice" BAY_OF_ICE
      [CASTLE_BLACK, THE_STONY_SHORE, WINTERFELL, FLINTS_FINGER,
       GREYWATER_WATCH, SUNSET_SEA],
    seaArea "The Shivering Sea" THE_SHIVERING_SEA
      [CASTLE_BLACK, KARHOLD, WINTERFELL, WHITE_HARBOR, WIDOWS_WATCH,
       THE_NARROW_SEA],
    seaArea "Sunset Sea" SUNSET_SEA
      [FLINTS_FINGER, SEAROAD_MARCHES, BAY_OF_ICE, IRONMANS_BAY,
       THE_GOLDEN_SOUND, WEST_SUMMER_SEA],
    seaArea "Ironman's Bay" IRONMANS_BAY
      [PYKE, FLINTS_FINGER, GREYWATER_WATCH, SEAGARD, RIVERRUN, SUNSET_SEA,
       THE_GOLDEN_SOUND],
    seaArea "The Golden Sound" THE_GOLDEN_SOUND
      [LANNISPORT, RIVERRUN, SEAROAD_MARCHES, IRONMANS_BAY, SUNSET_SEA],
    seaArea "The Narrow Sea" THE_NARROW_SEA
      [MOAT_CAILIN, WHITE_HARBOR, WIDOWS_WATCH, THE_TWINS, THE_FINGERS,
       MOUNTAINS_OF_THE_MOON, THE_EYRIE, CRACKCLAW_POINT, THE_SHIVERING_SEA,
       SHIPBREAKER_BAY],
    seaArea "Blackwater Bay" BLACKWATER_BAY
      [KINGS_LANDING, CRACKCLAW_POINT, KINGSWOOD, SHIPBREAKER_BAY],
    seaArea "Shipbreaker Bay" SHIPBREAKER_BAY
      [DRAGONSTONE, CRACKCLAW_POINT, KINGSWOOD, STORMS_END, THE_NARROW_SEA,
       BLACKWATER_BAY, EAST_SUMMER_SEA],
    seaArea "Redwyne Straits" REDWYNE_STRAITS
      [HIGHGARDEN, OLDTOWN, THE_ARBOR, THREE_TOWERS, WEST_SUMMER_SEA],
    seaArea "West Summer Sea" WEST_SUMMER_SEA
      [HIGHGARDEN, SEAROAD_MARCHES, THREE_TOWERS, THE_ARBOR, STARFALL,
       SUNSET_SEA, REDWYNE_STRAITS, EAST_SUMMER_SEA],
    seaArea "East Summer Sea" EAST_SUMMER_SEA
      [SUNSPEAR, SALT_SHORE, STARFALL, STORMS_END, WEST_SUMMER_SEA,
       SEA_OF_DORNE, SHIPBREAKER_BAY],
    seaArea "Sea of Dorne" SEA_OF_DORNE
      [SUNSPEAR, YRONWOOD, STORMS_END, THE_BONEWAY, EAST_SUMMER_SEA],
    portArea "Winterfell Port" WINTERFELL_PORT WINTERFELL BAY_OF_ICE,
    portArea "White Harbor Port" WHITE_HARBOR_PORT WHITE_HARBOR THE_NARROW_SEA,
    portArea "Pyke Port" PYKE_PORT PYKE IRONMANS_BAY,
    portArea "Lannisport Port" LANNISPORT_PORT LANNISPORT THE_GOLDEN_SOUND,
    portArea "Dragonstone Port" DRAGONSTONE_PORT DRAGONSTONE SHIPBREAKER_BAY,
    portArea "Storm's End Port" STORMS_END_PORT STORMS_END SHIPBREAKER_BAY,
    portArea "Highgarden Port" HIGHGARDEN_PORT HIGHGARDEN REDWYNE_STRAITS,
    portArea "Oldtown Port" OLDTOWN_PORT OLDTOWN REDWYNE_STRAITS,
    portArea "Sunspear Port" SUNSPEAR_PORT SUNSPEAR EAST_SUMMER_SEA ]

/-- Indexing into AREAS (the Rust code indexes the static array directly;
the fallback is never reached for valid ids). -/
def areaDef (id : AreaId) : AreaDef :=
  AREAS.getD id (seaArea "" 255 [])

/-- Initial garrison strengths of map.rs. -/
def initial_garrison_strength (area : AreaId) : Option Nat :=
  if area = KINGS_LANDING then some 5
  else if area = THE_EYRIE then some 6
  else if area = DRAGONSTONE then some 2
  else if area = WINTERFELL then some 2
  else if area = LANNISPORT then some 2
  else if area = HIGHGARDEN then some 2
  else if area = SUNSPEAR then some 2
  else if area = PYKE then some 2
  else none

end GoT

namespace GoT

-- ── House card data (cards.rs) ─────────────────────────────────────────

/-- The seven house cards of each house (cards.rs house_cards). -/
def house_cards : HouseName → List HouseCard
  | .Stark =>
    [ ⟨.EddardStark, .Stark, 4, 2, 0⟩,
      ⟨.RobbStark, .Stark, 3, 0, 0⟩,
      ⟨.GreatjonUmber, .Stark, 2, 2, 0⟩,
      ⟨.RooseBolton, .Stark, 2, 0, 0⟩,
      ⟨.TheBlackfish, .Stark, 1, 0, 0⟩,
      ⟨.SerRodrikCassel, .Stark, 1, 0, 2⟩,
      ⟨.CatelynStark, .Stark, 0, 0, 0⟩ ]
  | .Lannister =>
    [ ⟨.TywinLannister, .Lannister, 4, 0, 0⟩,
      ⟨.SerGregorClegane, .Lannister, 3, 3, 0⟩,
      ⟨.SerJaimeLannister, .Lannister, 2, 1, 0⟩,
      ⟨.TheHound, .Lannister, 2, 0, 2⟩,
      ⟨.TyrionLannister, .Lannister, 1, 0, 0⟩,
      ⟨.SerKevanLannister, .Lannister, 1, 0, 0⟩,
      ⟨.CerseiLannister, .Lannister, 0, 0, 0⟩ ]
  | .Baratheon =>
    [ ⟨.StannisBaratheon, .Baratheon, 4, 0, 0⟩,
      ⟨.RenlyBaratheon, .Baratheon, 3, 0, 0⟩,
      ⟨.BrienneOfTarth, .Baratheon, 2, 1, 1⟩,
      ⟨.SerDavosSeaworth, .Baratheon, 2, 0, 0⟩,
      ⟨.Melisandre, .Baratheon, 1, 1, 0⟩,
      ⟨.SalladhorSaan, .Baratheon, 1, 0, 0⟩,
      ⟨.Patchface, .Baratheon, 0, 0, 0⟩ ]
  | .Greyjoy =>
    [ ⟨.EuronCrowsEye, .Greyjoy, 4, 1, 0⟩,
      ⟨.VictarionGreyjoy, .Greyjoy, 3, 0, 0⟩,
      ⟨.BalonGreyjoy, .Greyjoy, 2, 0, 0⟩,
      ⟨.TheonGreyjoy, .Greyjoy, 2, 0, 0⟩,
      ⟨.AshaGreyjoy, .Greyjoy, 1, 0, 0⟩,
      ⟨.DagmerCleftjaw, .Greyjoy, 1, 1, 1⟩,
      ⟨.AeronDamphair, .Greyjoy, 0, 0, 0⟩ ]
  | .Tyrell =>
    [ ⟨.MaceTyrell, .Tyrell, 4, 0, 0⟩,
      ⟨.SerLorasTyrell, .Tyrell, 3, 0, 0⟩,
      ⟨.SerGarlanTyrell, .Tyrell, 2, 2, 0⟩,
      ⟨.RandyllTarly, .Tyrell, 2, 2, 0⟩,
      ⟨.MargaeryTyrell, .Tyrell, 1, 0, 1⟩,
      ⟨.AlesterFlorent, .Tyrell, 1, 0, 1⟩,
      ⟨.QueenOfThorns, .Tyrell, 0, 0, 0⟩ ]
  | .Martell =>
    [ ⟨.TheRedViper, .Martell, 4, 2, 1⟩,
      ⟨.AreoHotah, .Martell, 3, 0, 1⟩,
      ⟨.ObaraSand, .Martell, 2, 1, 0⟩,
      ⟨.Darkstar, .Martell, 2, 1, 0⟩,
      ⟨.NymeriaSand, .Martell, 1, 0, 0⟩,
      ⟨.ArianneMartell, .Martell, 1, 0, 0⟩,
      ⟨.DoranMartell, .Martell, 0, 0, 0⟩ ]

def all_house_card_ids (house : HouseName) : List HouseCardId :=
  (house_cards house).map (·.id)

/-- Flat lookup of a card by id across all houses (cards.rs
get_house_card; the Rust panics for an unknown id, which cannot happen
since every id occurs in exactly one house list — the fallback here is
unreachable). -/
def get_house_card (id : HouseCardId) : HouseCard :=
  ((HouseName.ALL.flatMap house_cards).find? (fun c => c.id = id)).getD
    ⟨id, .Stark, 0, 0, 0⟩

/-- Westeros deck 1 contents (cards.rs). -/
def westeros_deck_1_cards : List WesterosCard :=
  [ ⟨1, .Supply, false⟩, ⟨1, .Supply, false⟩, ⟨1, .Supply, false⟩,
    ⟨1, .Mustering, false⟩, ⟨1, .Mustering, false⟩, ⟨1, .Mustering, false⟩,
    ⟨1, .AThroneOfBlades, true⟩, ⟨1, .AThroneOfBlades, true⟩,
    ⟨1, .WinterIsComing, false⟩, ⟨1, .LastDaysOfSummer, true⟩ ]

/-- Westeros deck 2 contents (cards.rs). -/
def westeros_deck_2_cards : List WesterosCard :=
  [ ⟨2, .ClashOfKings, false⟩, ⟨2, .ClashOfKings, false⟩,
    ⟨2, .ClashOfKings, false⟩, ⟨2, .GameOfThrones, false⟩,
    ⟨2, .GameOfThrones, false⟩, ⟨2, .GameOfThrones, false⟩,
    ⟨2, .DarkWingsDarkWords, true⟩, ⟨2, .DarkWingsDarkWords, true⟩,
    ⟨2, .WinterIsComing, false⟩, ⟨2, .LastDaysOfSummer, true⟩ ]

/-- Westeros deck 3 contents (cards.rs). -/
def westeros_deck_3_cards : List WesterosCard :=
  [ ⟨3, .WildlingAttack, false⟩, ⟨3, .WildlingAttack, false⟩,
    ⟨3, .WildlingAttack, false⟩, ⟨3, .PutToTheSword, true⟩,
    ⟨3, .PutToTheSword, true⟩, ⟨3, .SeaOfStorms, true⟩,
    ⟨3, .RainsOfAutumn, true⟩, ⟨3, .FeastForCrows, true⟩,
    ⟨3, .WebOfLies, true⟩, ⟨3, .StormOfSwords, true⟩ ]

/-- Wildling deck contents (cards.rs). -/
def wildling_deck_cards : List WildlingCard :=
  [ ⟨.AKingBeyondTheWall⟩, ⟨.CrowKillers⟩, ⟨.MammothRiders⟩,
    ⟨.MassingOnTheMilkwater⟩, ⟨.PreemptiveRaid⟩, ⟨.RattleshirtsRaiders⟩,
    ⟨.SilenceAtTheWall⟩, ⟨.SkinchangerScout⟩, ⟨.TheHordeDescends⟩ ]

-- ── Supply (supply.rs) ─────────────────────────────────────────────────

/-- Insertion of an element into a list sorted by the Boolean comparator
before: x is placed in front of the first element y with before x y. -/
def insertBy (before : α → α → Bool) (x : α) : List α → List α
  | [] => [x]
  | y :: ys => if before x y then x :: y :: ys else y :: insertBy before x ys

/-- Comparison sort used to embed slice::sort_by / sort_unstable_by; the
claims proved below depend only on the result being a sorted permutation,
which holds for any of Rust's sort flavours. -/
def sortBy (before : α → α → Bool) : List α → List α
  | [] => []
  | x :: xs => insertBy before x (sortBy before xs)

/-- Army sizes of a house: unit counts of its controlled areas holding two
or more units (supply.rs check_supply_violation, collection loop). -/
def armySizes (s : GameState) (house : HouseName) : List Nat :=
  s.areas.filterMap (fun a =>
    if a.house = some house ∧ 2 ≤ a.units.length then some a.units.length
    else none)

/-- Check of descending army sizes against the slot capacities: more
armies than slots, or any army above its matched slot, is a violation
(supply.rs check_supply_violation, comparison loop). -/
def armiesViolate : List Nat → List Nat → Bool
  | [], _ => false
  | _ :: _, [] => true
  | a :: as_, l :: ls => decide (l < a) || armiesViolate as_ ls

/-- supply.rs check_supply_violation. -/
def check_supply_violation (s : GameState) (house : HouseName) : Bool :=
  let limits := supply_limits (Nat.min (s.house house).supply 6)
  let armies := sortBy (fun a b => decide (b < a)) (armySizes s house)
  armiesViolate armies limits

/-- supply.rs calculate_supply. -/
def calculate_supply (s : GameState) (house : HouseName) : Nat :=
  let total := ((List.range s.areas.length).map (fun i =>
    if (s.area i).house = some house then (areaDef i).supply_icons else 0)).sum
  Nat.min total 6

/-- Armies of a house with their area ids (supply.rs find_violations,
collection loop). -/
def armiesWithAreas (s : GameState) (house : HouseName) : List (AreaId × Nat) :=
  (List.range s.areas.length).filterMap (fun i =>
    if (s.area i).house = some house ∧ 2 ≤ (s.area i).units.length then
      some (i, (s.area i).units.length)
    else none)

/-- Pairing of descending armies with their slot capacities; an army with
no slot gets capacity 1 (supply.rs find_violations, comparison loop). -/
def violationsOf : List (AreaId × Nat) → List Nat → List (AreaId × Nat × Nat)
  | [], _ => []
  | (aid, sz) :: rest, [] =>
    (if 1 < sz then [(aid, sz, 1)] else []) ++ violationsOf rest []
  | (aid, sz) :: rest, l :: ls =>
    (if l < sz then [(aid, sz, l)] else []) ++ violationsOf rest ls

/-- supply.rs find_violations. -/
def find_violations (s : GameState) (house : HouseName) :
    List (AreaId × Nat × Nat) :=
  let limits := supply_limits (Nat.min (s.house house).supply 6)
  let armies := sortBy (fun a b => decide (b.2 < a.2)) (armiesWithAreas s house)
  violationsOf armies limits

end GoT

namespace GoT

-- ── Navigation (navigation.rs) ─────────────────────────────────────────

/-- navigation.rs has_friendly_ship. -/
def has_friendly_ship (s : GameState) (area : AreaId) (house : HouseName) : Bool :=
  (s.area area).units.any (fun u =>
    u.unit_type = UnitType.Ship && u.house = house)

/-- Breadth-first search of navigation.rs is_move_valid: the queue holds
areas dst expand, visited marks areas already enqueued.  The fuel bounds the
number of loop iterations; NUM_AREAS + 1 always suffices since every
iteration removes one queue entry and entries are enqueued at most once. -/
def shipRelayBfs (s : GameState) (house : HouseName) (dst : AreaId) :
    Nat → List AreaId → List Bool → Bool
  | 0, _, _ => false
  | _ + 1, [], _ => false
  | fuel + 1, current :: queue, visited =>
    let currentDef := areaDef current
    let step := currentDef.adjacent.foldl
      (fun (acc : Bool × List AreaId × List Bool) adj_id =>
        let (found, q, vis) := acc
        if found then acc
        else if vis.getD adj_id false then acc
        else
          let adjDef := areaDef adj_id
          if adj_id = dst then
            if currentDef.is_sea && has_friendly_ship s current house then
              (true, q, vis)
            else acc
          else if adjDef.is_sea && has_friendly_ship s adj_id house then
            (found, q ++ [adj_id], vis.set adj_id true)
          else acc)
      (false, queue, visited)
    if step.1 then true else shipRelayBfs s house dst fuel step.2.1 step.2.2

/-- navigation.rs is_move_valid. -/
def is_move_valid (s : GameState) (from_ dst : AreaId) (house : HouseName) : Bool :=
  let fromDef := areaDef from_
  let toDef := areaDef dst
  let toState := s.area dst
  if toState.blocked then false
  else if fromDef.adjacent.contains dst then true
  else if !fromDef.is_land then false
  else if toDef.is_sea then false
  else
    shipRelayBfs s house dst (NUM_AREAS + 1) [from_]
      ((List.replicate NUM_AREAS false).set from_ true)

/-- navigation.rs valid_destinations. -/
def valid_destinations (s : GameState) (from_ : AreaId) (house : HouseName) :
    List AreaId :=
  (List.range NUM_AREAS).filter (fun dst =>
    dst ≠ from_ && is_move_valid s from_ dst house)

-- ── Visibility (visibility.rs) ─────────────────────────────────────────

structure PublicHouseInfo where
  name : HouseName
  iron_throne : Nat
  fiefdoms : Nat
  kings_court : Nat
  supply : Nat
  power : Nat
  cards_in_hand : Nat
  discards : List HouseCardId
  available_units : UnitPool
deriving DecidableEq

structure AreaView where
  id : AreaId
  units : List Unit
  house : Option HouseName
  order : Option Order
  has_hidden_order : Bool
  blocked : Bool
deriving DecidableEq

structure PlayerView where
  viewer : HouseName
  round : Nat
  phase : Phase
  action_sub_phase : ActionSubPhase
  wildling_threat : Nat
  turn_order : List HouseName
  playing_houses : List HouseName
  house_info : HouseName → PublicHouseInfo
  areas : List AreaView
  garrisons : AreaId → Option Garrison
  combat : Option CombatState
  pending : Option PendingDecision
  valyrian_steel_blade_used : Bool
  messenger_raven_used : Bool
  order_restrictions : List OrderType
  star_order_restrictions : List OrderType
  winner : Option HouseName
  my_hand : List HouseCardId
  my_orders : List (AreaId × Order)

/-- visibility.rs orders_are_revealed. -/
def orders_are_revealed (s : GameState) : Bool :=
  (s.phase = Phase.Action || s.phase = Phase.Combat) || s.phase = Phase.Westeros

/-- visibility.rs pending_involves. -/
def pending_involves (p : PendingDecision) (house : HouseName) : Bool :=
  match p with
  | .WesterosChoice _ chooser _ => chooser = house
  | .SupportDeclaration h _ _ _ => h = house
  | .TyrionReplace opponent => opponent = house
  | .AeronSwap h => h = house
  | .PatchfaceDiscard _ _ => true
  | .RobbRetreat _ _ => true
  | .Retreat h _ _ _ => h = house
  | .Reconcile h _ _ _ => h = house
  | .Muster h _ => h = house
  | .Bidding _ _ _ => true
  | .LeavePowerToken _ _ => true
  | .UseValyrianBlade _ => true
  | .PlaceOrders h => h = house
  | .ChooseRaid h _ _ => h = house
  | .ChooseMarch h _ _ => h = house
  | .SelectHouseCard h _ => h = house
  | .MessengerRaven h => h = house
  | .WildlingPenaltyChoice h _ => h = house
  | .CerseiRemoveOrder _ => true
  | .DoranChooseTrack _ => true
  | .QueenOfThornsRemoveOrder _ => true

/-- View of one area for a given viewer (visibility.rs player_view, area
loop body). -/
def areaViewFor (revealed : Bool) (viewer : HouseName) (i : AreaId)
    (a : AreaState) : AreaView :=
  let is_mine := a.house = some viewer
  let ov : Option Order × Bool :=
    if revealed then (a.order, false)
    else if is_mine then (a.order, false)
    else (none, a.order.isSome)
  { id := i, units := a.units, house := a.house, order := ov.1,
    has_hidden_order := ov.2, blocked := a.blocked }

/-- visibility.rs player_view. -/
def player_view (s : GameState) (viewer : HouseName) : PlayerView :=
  let revealed := orders_are_revealed s
  let area_views := (List.range s.areas.length).map (fun i =>
    areaViewFor revealed viewer i (s.area i))
  let house_info : HouseName → PublicHouseInfo := fun h =>
    let profile := s.houses h
    { name := h, iron_throne := profile.iron_throne,
      fiefdoms := profile.fiefdoms, kings_court := profile.kings_court,
      supply := profile.supply, power := profile.power,
      cards_in_hand := profile.hand.length, discards := profile.discards,
      available_units := profile.available_units }
  let my_hand := (s.houses viewer).hand
  let my_orders : List (AreaId × Order) :=
    if !revealed then
      (List.range s.areas.length).filterMap (fun i =>
        if (s.area i).house = some viewer then
          ((s.area i).order).map (fun o => (i, o))
        else none)
    else []
  let pending := s.pending.bind (fun p =>
    if pending_involves p viewer then some p else none)
  { viewer := viewer, round := s.round, phase := s.phase,
    action_sub_phase := s.action_sub_phase,
    wildling_threat := s.wildling_threat, turn_order := s.turn_order,
    playing_houses := s.playing_houses, house_info := house_info,
    areas := area_views, garrisons := s.garrisons, combat := s.combat,
    pending := pending,
    valyrian_steel_blade_used := s.valyrian_steel_blade_used,
    messenger_raven_used := s.messenger_raven_used,
    order_restrictions := s.order_restrictions,
    star_order_restrictions := s.star_order_restrictions,
    winner := s.winner, my_hand := my_hand, my_orders := my_orders }

/-- visibility.rs possible_hand. -/
def possible_hand (s : GameState) (house : HouseName) : List HouseCardId :=
  (all_house_card_ids house).filter (fun c => !(s.houses house).discards.contains c)

end GoT

namespace GoT

-- ── Setup (setup.rs) ───────────────────────────────────────────────────

structure HouseSetup where
  home_area : AreaId
  initial_supply : Nat
  minimum_players : Nat
  iron_throne : Nat
  fiefdoms : Nat
  kings_court : Nat
  starting_units : List (AreaId × List UnitType)

/-- setup.rs house_setups. -/
def house_setups : List (HouseName × HouseSetup) :=
  [ (.Stark,
     { home_area := WINTERFELL, initial_supply := 1, minimum_players := 3,
       iron_throne := 3, fiefdoms := 4, kings_court := 2,
       starting_units :=
         [ (WINTERFELL, [.Knight, .Footman]),
           (WHITE_HARBOR, [.Footman]),
           (THE_SHIVERING_SEA, [.Ship]) ] }),
    (.Lannister,
     { home_area := LANNISPORT, initial_supply := 2, minimum_players := 3,
       iron_throne := 2, fiefdoms := 6, kings_court := 1,
       starting_units :=
         [ (LANNISPORT, [.Knight, .Footman]),
           (STONEY_SEPT, [.Footman]),
           (THE_GOLDEN_SOUND, [.Ship]) ] }),
    (.Baratheon,
     { home_area := DRAGONSTONE, initial_supply := 2, minimum_players := 3,
       iron_throne := 1, fiefdoms := 5, kings_court := 4,
       starting_units :=
         [ (DRAGONSTONE, [.Knight, .Footman]),
           (KINGSWOOD, [.Footman]),
           (SHIPBREAKER_BAY, [.Ship, .Ship]) ] }),
    (.Greyjoy,
     { home_area := PYKE, initial_supply := 2, minimum_players := 4,
       iron_throne := 5, fiefdoms := 1, kings_court := 6,
       starting_units :=
         [ (PYKE, [.Knight, .Footman]),
           (PYKE_PORT, [.Ship]),
           (GREYWATER_WATCH, [.Footman]),
           (IRONMANS_BAY, [.Ship]) ] }),
    (.Tyrell,
     { home_area := HIGHGARDEN, initial_supply := 2, minimum_players := 5,
       iron_throne := 6, fiefdoms := 2, kings_court := 5,
       starting_units :=
         [ (HIGHGARDEN, [.Knight, .Footman]),
           (DORNISH_MARCHES, [.Footman]),
           (REDWYNE_STRAITS, [.Ship]) ] }),
    (.Martell,
     { home_area := SUNSPEAR, initial_supply := 2, minimum_players := 6,
       iron_throne := 4, fiefdoms := 3, kings_court := 3,
       starting_units :=
         [ (SUNSPEAR, [.Knight, .Footman]),
           (SALT_SHORE, [.Footman]),
           (SEA_OF_DORNE, [.Ship]) ] }) ]

/-- Stand-in for the ChaCha8Rng shuffles: the RNG permutation of a deck is
irrelevant to every property proved in this file, so it is modelled as the
identity permutation (the Rust result is some seed-determined permutation
of the same multiset). -/
def rngShuffle (_seed : Nat) (l : List α) : List α := l

/-- Profile used for houses that are not in the game; the Rust HashMap has
no entry for them and lookups panic, which never happens for them. -/
def absentProfile (h : HouseName) : HouseProfile :=
  { name := h, iron_throne := 0, fiefdoms := 0, kings_court := 0,
    supply := 0, power := 0,
    available_units := ⟨0, 0, 0, 0⟩, hand := [], discards := [],
    used_order_tokens := [] }

/-- Placement of one house's starting units onto the board, deducting the
pool (setup.rs create_initial_state, starting-units loop). -/
def placeUnits (house : HouseName) :
    List (AreaId × List UnitType) → List AreaState → UnitPool →
    List AreaState × UnitPool
  | [], areas, pool => (areas, pool)
  | (area_id, unit_types) :: rest, areas, pool =>
    let step := unit_types.foldl
      (fun (acc : List AreaState × UnitPool) ut =>
        let (as_, p) := acc
        let old := as_.getD area_id AreaState.default
        (as_.set area_id
          { old with units := old.units ++ [⟨ut, house, false⟩],
                     house := some house },
         p.setCount ut (p.get ut - 1)))
      (areas, pool)
    placeUnits house rest step.1 step.2

def setGarrison (g : AreaId → Option Garrison) (id : AreaId) (v : Garrison) :
    AreaId → Option Garrison :=
  fun i => if i = id then some v else g i

/-- setup.rs create_initial_state.  The GameState literal in setup.rs omits
the bidding, westeros_cards_drawn, westeros_step, muster_house_idx, seed
and rng_counter fields of the struct; they are initialised here to the
empty values the engine expects at game start. -/
def create_initial_state (player_count : Nat) (seed : Nat) : GameState :=
  let playing := house_setups.filter (fun hs => hs.2.minimum_players ≤ player_count)
  let playing_houses := playing.map (·.1)
  let turn_order := sortBy
    (fun a b =>
      decide (((house_setups.find? (fun hs => hs.1 = a)).map
          (fun hs => hs.2.iron_throne)).getD 0 <
        ((house_setups.find? (fun hs => hs.1 = b)).map
          (fun hs => hs.2.iron_throne)).getD 0))
    playing_houses
  let areas0 : List AreaState := List.replicate NUM_AREAS AreaState.default
  let step := playing.foldl
    (fun (acc : List AreaState × (HouseName → HouseProfile)) hs =>
      let (areas, houses) := acc
      let (house_name, setup) := hs
      let pool0 : UnitPool := ⟨10, 5, 6, 2⟩
      let placed := placeUnits house_name setup.starting_units areas pool0
      let areas2 := placed.1
      let homeOld := areas2.getD setup.home_area AreaState.default
      let areas3 := areas2.set setup.home_area { homeOld with house := some house_name }
      let profile : HouseProfile :=
        { name := house_name, iron_throne := setup.iron_throne,
          fiefdoms := setup.fiefdoms, kings_court := setup.kings_court,
          supply := setup.initial_supply, power := 5,
          available_units := placed.2,
          hand := all_house_card_ids house_name, discards := [],
          used_order_tokens := [] }
      (areas3, fun h => if h = house_name then profile else houses h))
    (areas0, absentProfile)
  let areas := step.1
  let houses := step.2
  let garrisons0 : AreaId → Option Garrison := fun _ => none
  let garrisons1 := playing.foldl
    (fun g hs =>
      match initial_garrison_strength hs.2.home_area with
      | some strength => setGarrison g hs.2.home_area ⟨hs.1, strength⟩
      | none => g)
    garrisons0
  let areas2 :=
    if player_count = 3 then
      [ SUNSPEAR, SALT_SHORE, STARFALL, YRONWOOD, PRINCES_PASS,
        THE_BONEWAY, THREE_TOWERS, DORNISH_MARCHES,
        HIGHGARDEN, OLDTOWN, THE_ARBOR,
        SEA_OF_DORNE, EAST_SUMMER_SEA, WEST_SUMMER_SEA, REDWYNE_STRAITS,
        SUNSPEAR_PORT, HIGHGARDEN_PORT, OLDTOWN_PORT ].foldl
        (fun as_ area =>
          let old := as_.getD area AreaState.default
          as_.set area { old with blocked := true })
        areas
    else areas
  let garrisons2 :=
    if garrisons1 KINGS_LANDING = none then
      setGarrison garrisons1 KINGS_LANDING ⟨.Baratheon, 5⟩
    else garrisons1
  let garrisons3 :=
    if garrisons2 THE_EYRIE = none then
      setGarrison garrisons2 THE_EYRIE ⟨.Stark, 6⟩
    else garrisons2
  { round := 1, phase := .Planning, action_sub_phase := .Raid,
    action_player_index := 0, houses := houses, areas := areas2,
    turn_order := turn_order, wildling_threat := 2, garrisons := garrisons3,
    valyrian_steel_blade_used := false, messenger_raven_used := false,
    westeros_deck_1 := rngShuffle seed westeros_deck_1_cards,
    westeros_deck_2 := rngShuffle seed westeros_deck_2_cards,
    westeros_deck_3 := rngShuffle seed westeros_deck_3_cards,
    wildling_deck := rngShuffle seed wildling_deck_cards,
    order_restrictions := [], star_order_restrictions := [],
    combat := none, bidding := none, westeros_cards_drawn := [],
    westeros_step := 0, muster_house_idx := 0, seed := seed,
    rng_counter := 0, pending := none, winner := none,
    playing_houses := playing_houses }

end GoT

namespace GoT

-- ── Engine: actions (engine.rs Action enum) ────────────────────────────

inductive MusterAction2 where
  | Build (unit_type : UnitType)
  | Upgrade
deriving DecidableEq

inductive Action where
  | PlaceOrders (orders : List (AreaId × Nat))
  | Raid (target : Option AreaId)
  | March (dst : AreaId) (unit_indices : List Nat)
  | MarchSkip
  | LeavePowerToken (leave : Bool)
  | DeclareSupport (choice : SupportChoice)
  | SelectCard (card : HouseCardId)
  | UseValyrianBlade (use_it : Bool)
  | Bid (amount : Nat)
  | WesterosChoice (idx : Nat)
  | Muster (actions : List (AreaId × MusterAction2))
  | Retreat (dst : AreaId)
  | Reconcile (area : AreaId) (unit_idx : Nat)
  | MessengerRaven (swap : Option (AreaId × Nat))
  | AeronSwap (card : Option HouseCardId)
  | TyrionReplace (card : HouseCardId)
  | PatchfaceDiscard (card : HouseCardId)
  | RobbRetreat (dst : AreaId)
  | CerseiRemoveOrder (area : AreaId)
  | DoranChooseTrack (track : Track)
  | QueenOfThorns (area : AreaId)
  | WildlingPenalty (idx : Nat)
deriving DecidableEq

/-- Vec::pop: removes and returns the LAST element of a vector. -/
def vecPop (l : List α) : Option α × List α := (l.getLast?, l.dropLast)

-- ── Engine: track helpers ──────────────────────────────────────────────

/-- Position of a house on a track (field selection used throughout
engine.rs). -/
def trackPos (s : GameState) (track : Track) (h : HouseName) : Nat :=
  match track with
  | .IronThrone => (s.house h).iron_throne
  | .Fiefdoms => (s.house h).fiefdoms
  | .KingsCourt => (s.house h).kings_court

/-- Functional update of a house's position on a track. -/
def setTrackPos (track : Track) (h : HouseName) (pos : Nat) (s : GameState) :
    GameState :=
  s.updateHouse h (fun p =>
    match track with
    | .IronThrone => { p with iron_throne := pos }
    | .Fiefdoms => { p with fiefdoms := pos }
    | .KingsCourt => { p with kings_court := pos })

/-- engine.rs find_track_holder. -/
def find_track_holder (s : GameState) (track : Track) : HouseName :=
  match s.playing_houses.find? (fun h => trackPos s track h = 1) with
  | some h => h
  | none => s.turn_order.getD 0 .Stark

/-- engine.rs get_muster_areas. -/
def get_muster_areas (s : GameState) (house : HouseName) : List MusterArea :=
  (List.range s.areas.length).filterMap (fun i =>
    if (s.area i).house = some house ∧ (areaDef i).has_castle_or_stronghold
        ∧ !(s.area i).blocked then
      some ⟨i, (areaDef i).muster_points⟩
    else none)

-- ── Engine: supply update and reconciliation scan ──────────────────────

/-- Scan of the playing houses for the first violating house with a
nonempty violation list; this is the loop shared verbatim by
resolve_supply_update and the Reconcile arm of apply_action. -/
def reconcilePendingFor (s : GameState) : List HouseName → Option PendingDecision
  | [] => none
  | h :: hs =>
    if check_supply_violation s h then
      match (find_violations s h).head? with
      | some v => some (.Reconcile h v.1 v.2.1 v.2.2)
      | none => reconcilePendingFor s hs
    else reconcilePendingFor s hs

/-- engine.rs resolve_supply_update. -/
def resolve_supply_update (s : GameState) : GameState :=
  let s2 := s.playing_houses.foldl
    (fun st h => st.updateHouse h (fun p => { p with supply := calculate_supply st h }))
    s
  match reconcilePendingFor s2 s2.playing_houses with
  | some p => { s2 with pending := some p }
  | none => s2

/-- engine.rs resolve_game_of_thrones. -/
def resolve_game_of_thrones (s : GameState) : GameState :=
  s.playing_houses.foldl
    (fun st h =>
      let power_gain := ((List.range st.areas.length).map (fun i =>
        if (st.area i).house = some h then (areaDef i).power_icons else 0)).sum
      st.updateHouse h (fun p => { p with power := p.power + power_gain }))
    s

-- ── Engine: bidding (engine.rs) ────────────────────────────────────────

/-- engine.rs begin_clash_of_kings. -/
def begin_clash_of_kings (s : GameState) : GameState :=
  { s with bidding := some (
    { bidding_type := .IronThrone, bids := [],
      current_track := some .IronThrone,
      remaining_tracks := [.Fiefdoms, .KingsCourt],
      bid_order := s.turn_order, next_bidder_idx := 0 }) }

/-- engine.rs begin_wildling_attack. -/
def begin_wildling_attack (s : GameState) : GameState :=
  if s.wildling_threat = 0 then s
  else
    { s with bidding := some (
      { bidding_type := .Wildling, bids := [], current_track := none,
        remaining_tracks := [], bid_order := s.turn_order,
        next_bidder_idx := 0 }) }

/-- Position assignment loop of engine.rs resolve_track_bidding: walk the
sorted (house, bid, old position) triples, give the k-th house position k
(1-based) on the track and deduct its bid. -/
def assignTrackPositions (track : Track) :
    Nat → List (HouseName × Nat × Nat) → GameState → GameState
  | _, [], s => s
  | pos, t :: rest, s =>
    let s2 := setTrackPos track t.1 pos s
    let s3 := s2.updateHouse t.1 (fun p => { p with power := p.power - t.2.1 })
    assignTrackPositions track (pos + 1) rest s3

/-- engine.rs resolve_track_bidding. -/
def resolve_track_bidding (s : GameState) : GameState :=
  match s.bidding with
  | none => s
  | some bidding =>
    let s := { s with bidding := none }
    match bidding.current_track with
    | none => s
    | some track =>
      let triples := bidding.bid_order.map (fun h =>
        (h, (bidding.bids.lookup h).getD 0, trackPos s track h))
      let sorted := sortBy (fun a b =>
        decide (b.2.1 < a.2.1) || (a.2.1 = b.2.1 && decide (a.2.2 ≤ b.2.2))) triples
      let s2 := assignTrackPositions track 1 sorted s
      let s3 :=
        if track = Track.IronThrone then
          { s2 with turn_order := (sortBy
            (fun a b => decide ((s2.house a).iron_throne ≤ (s2.house b).iron_throne))
            s2.playing_houses) }
        else s2
      match bidding.remaining_tracks with
      | [] => s3
      | next_track :: remaining =>
        let bt : BiddingType := match next_track with
          | .IronThrone => .IronThrone
          | .Fiefdoms => .Fiefdoms
          | .KingsCourt => .KingsCourt
        { s3 with bidding := some (
          { bidding_type := bt, bids := [], current_track := some next_track,
            remaining_tracks := remaining, bid_order := s3.turn_order,
            next_bidder_idx := 0 }) }

/-- engine.rs resolve_wildling_bidding. -/
def resolve_wildling_bidding (s : GameState) : GameState :=
  match s.bidding with
  | none => s
  | some bidding =>
    let s := { s with bidding := none }
    let total_bid : Nat := (bidding.bids.map (fun pr => pr.2)).sum
    let threat := s.wildling_threat
    let pairs := bidding.bid_order.map (fun h => (h, (bidding.bids.lookup h).getD 0))
    let s2 := pairs.foldl
      (fun st pr => st.updateHouse pr.1 (fun p => { p with power := p.power - pr.2 }))
      s
    if threat ≤ total_bid then
      let sorted := sortBy (fun (a b : HouseName × Nat) => decide (b.2 ≤ a.2)) pairs
      let highest := (sorted.getD 0 (HouseName.Stark, 0)).1
      let popped := vecPop s2.wildling_deck
      let s3 := { s2 with wildling_deck := popped.2 }
      let s4 := match popped.1 with
        | some _ => s3.updateHouse highest (fun p => { p with power := p.power + 2 })
        | none => s3
      { s4 with wildling_threat := 0 }
    else
      let itOf : HouseName → Nat := fun h => (s2.house h).iron_throne
      let sorted := sortBy (fun (a b : HouseName × Nat) =>
        decide (a.2 < b.2) ||
          (a.2 = b.2 && decide (itOf b.1 ≤ itOf a.1))) pairs
      let lowest := (sorted.getD 0 (HouseName.Stark, 0)).1
      let popped := vecPop s2.wildling_deck
      let s3 := { s2 with wildling_deck := popped.2 }
      let s4 := s3.updateHouse lowest (fun p => { p with power := p.power - 2 })
      let s5 := (sorted.drop 1).foldl
        (fun st pr => st.updateHouse pr.1 (fun p => { p with power := p.power - 1 }))
        s4
      { s5 with wildling_threat := 2 }

/-- engine.rs advance_bidding; the fuel bounds the recursion after a track
resolution spawns the next auction (at most three tracks). -/
def advance_bidding : Nat → GameState → GameState
  | 0, s => s
  | fuel + 1, s =>
    match s.bidding with
    | none => s
    | some bidding =>
      if bidding.next_bidder_idx < bidding.bid_order.length then
        let house := bidding.bid_order.getD bidding.next_bidder_idx .Stark
        { s with pending := some (
          .Bidding house bidding.bidding_type bidding.current_track) }
      else
        let s2 := match bidding.bidding_type with
          | .Wildling => resolve_wildling_bidding s
          | _ => resolve_track_bidding s
        if s2.bidding.isSome then advance_bidding fuel s2 else s2

end GoT

namespace GoT

-- ── Engine: mustering and Westeros cards ───────────────────────────────

/-- Inner loop of engine.rs advance_mustering_step; the fuel starts at
houses.length + 1, which covers every iteration (muster_house_idx only
increases until it leaves the list). -/
def mustering_loop : Nat → List HouseName → GameState → GameState
  | 0, _, s => s
  | fuel + 1, houses, s =>
    let idx := s.muster_house_idx - 1
    if houses.length ≤ idx then { s with muster_house_idx := 0 }
    else
      let house := houses.getD idx .Stark
      let muster_areas := get_muster_areas s house
      if muster_areas.isEmpty then
        mustering_loop fuel houses { s with muster_house_idx := s.muster_house_idx + 1 }
      else { s with pending := some (.Muster house muster_areas) }

/-- engine.rs advance_mustering_step. -/
def advance_mustering_step (s : GameState) : GameState :=
  mustering_loop (s.playing_houses.length + 1) s.playing_houses s

/-- engine.rs draw_westeros_cards. -/
def draw_westeros_cards (s : GameState) : GameState :=
  let s := { s with westeros_cards_drawn := [] }
  let p1 := vecPop s.westeros_deck_1
  let p2 := vecPop s.westeros_deck_2
  let p3 := vecPop s.westeros_deck_3
  let drawn := (match p1.1 with | some c => [c] | none => [])
    ++ (match p2.1 with | some c => [c] | none => [])
    ++ (match p3.1 with | some c => [c] | none => [])
  let wildling_icons := (drawn.filter (·.wildling_icon)).length
  { s with westeros_deck_1 := p1.2, westeros_deck_2 := p2.2,
           westeros_deck_3 := p3.2, westeros_cards_drawn := drawn,
           wildling_threat := Nat.min (s.wildling_threat + wildling_icons * 2) 12 }

/-- engine.rs resolve_westeros_card.  The fuel bounds the Winter-is-Coming
redraw recursion (each recursion pops a deck, so the total deck size is a
bound); all other arms ignore it. -/
def resolve_westeros_card : Nat → GameState → WesterosCard → GameState
  | 0, s, _ => s
  | fuel + 1, s, card =>
    match card.card_type with
    | .Supply => resolve_supply_update s
    | .Mustering => { s with muster_house_idx := 1 }
    | .AThroneOfBlades =>
      let holder := find_track_holder s .IronThrone
      { s with pending := some (
        .WesterosChoice "A Throne of Blades" holder ["Mustering", "Supply"]) }
    | .ClashOfKings => begin_clash_of_kings s
    | .GameOfThrones => resolve_game_of_thrones s
    | .DarkWingsDarkWords =>
      let holder := find_track_holder s .KingsCourt
      { s with pending := some (
        .WesterosChoice "Dark Wings, Dark Words" holder
          ["Clash of Kings", "Game of Thrones"]) }
    | .WildlingAttack => begin_wildling_attack s
    | .PutToTheSword =>
      let holder := find_track_holder s .Fiefdoms
      { s with pending := some (
        .WesterosChoice "Put to the Sword" holder
          ["Ban March*", "Ban Defense*", "Ban Support*", "Ban Raid*", "Ban CP*"]) }
    | .SeaOfStorms =>
      { s with order_restrictions := s.order_restrictions ++ [.Raid] }
    | .FeastForCrows =>
      { s with order_restrictions := s.order_restrictions ++ [.ConsolidatePower] }
    | .WebOfLies =>
      { s with order_restrictions := s.order_restrictions ++ [.Support] }
    | .StormOfSwords =>
      { s with order_restrictions := s.order_restrictions ++ [.Defense] }
    | .RainsOfAutumn =>
      { s with star_order_restrictions := s.star_order_restrictions ++ [.March] }
    | .WinterIsComing =>
      let s := { s with rng_counter := s.rng_counter + 1 }
      let key := s.seed + s.rng_counter
      let popped : Option WesterosCard × GameState :=
        if card.deck = 1 then
          let d := rngShuffle key s.westeros_deck_1
          ((vecPop d).1, { s with westeros_deck_1 := (vecPop d).2 })
        else if card.deck = 2 then
          let d := rngShuffle key s.westeros_deck_2
          ((vecPop d).1, { s with westeros_deck_2 := (vecPop d).2 })
        else if card.deck = 3 then
          let d := rngShuffle key s.westeros_deck_3
          ((vecPop d).1, { s with westeros_deck_3 := (vecPop d).2 })
        else (none, s)
      match popped.1 with
      | some nc =>
        let s2 := popped.2
        let idx := s2.westeros_step - 2
        let s3 :=
          if idx < s2.westeros_cards_drawn.length then
            { s2 with westeros_cards_drawn := s2.westeros_cards_drawn.set idx nc }
          else s2
        let s4 :=
          if nc.wildling_icon then
            { s3 with wildling_threat := Nat.min (s3.wildling_threat + 2) 12 }
          else s3
        resolve_westeros_card fuel s4 nc
      | none => popped.2
    | .LastDaysOfSummer => s

-- ── Engine: action-phase helpers ───────────────────────────────────────

/-- engine.rs find_first_order_area. -/
def find_first_order_area (s : GameState) (house : HouseName)
    (order_type : OrderType) : Option AreaId :=
  (List.range s.areas.length).find? (fun i =>
    (s.area i).house = some house &&
      match (s.area i).order with
      | some o => o.order_type = order_type
      | none => false)

/-- engine.rs resolve_single_consolidate_power. -/
def resolve_single_consolidate_power (s : GameState) (house : HouseName)
    (area_id : AreaId) : GameState :=
  let adef := areaDef area_id
  let is_star := match (s.area area_id).order with
    | some o => o.star
    | none => false
  if is_star && adef.has_castle_or_stronghold then
    let muster_area : MusterArea := ⟨area_id, adef.muster_points⟩
    let s2 := s.setArea area_id { s.area area_id with order := none }
    { s2 with pending := some (.Muster house [muster_area]) }
  else
    let power_gain := 1 + adef.power_icons
    let s2 := s.updateHouse house (fun p => { p with power := p.power + power_gain })
    s2.setArea area_id { s2.area area_id with order := none }

/-- engine.rs find_raid_targets. -/
def find_raid_targets (s : GameState) (from_ : AreaId) (house : HouseName) :
    List AreaId :=
  let is_star := match (s.area from_).order with
    | some o => o.star
    | none => false
  (areaDef from_).adjacent.filter (fun adj =>
    let area := s.area adj
    if area.house = some house ∨ area.house = none then false
    else
      match area.order with
      | some order =>
        match order.order_type with
        | .Raid => true
        | .Support => true
        | .ConsolidatePower => true
        | .Defense => is_star
        | _ => false
      | none => false)

/-- engine.rs find_retreat_areas. -/
def find_retreat_areas (s : GameState) (from_ : AreaId) (house : HouseName) :
    List AreaId :=
  (areaDef from_).adjacent.filter (fun adj =>
    let adef := areaDef adj
    let area := s.area adj
    adef.is_land && !area.blocked
      && (area.house = none || area.house = some house)
      && area.units.all (fun u => u.house = house))

-- ── Engine: round cleanup, victory, tiebreaker ─────────────────────────

/-- engine.rs check_victory. -/
def check_victory (s : GameState) : GameState :=
  match s.playing_houses.find? (fun h =>
    7 ≤ ((List.range s.areas.length).filter (fun i =>
      (s.area i).house = some h && (areaDef i).has_castle_or_stronghold)).length) with
  | some h => { s with winner := some h }
  | none => s

/-- engine.rs resolve_tiebreaker. -/
def resolve_tiebreaker (s : GameState) : GameState :=
  let rankings := s.playing_houses.map (fun h =>
    let score := ((List.range s.areas.length).map (fun i =>
      if (s.area i).house = some h then
        if (areaDef i).stronghold then 2 else if (areaDef i).castle then 1 else 0
      else 0)).sum
    let profile := s.house h
    (h, score, profile.supply, profile.power, profile.iron_throne))
  let sorted := sortBy (fun (a b : HouseName × Nat × Nat × Nat × Nat) =>
    if a.2.1 ≠ b.2.1 then decide (b.2.1 < a.2.1)
    else if a.2.2.1 ≠ b.2.2.1 then decide (b.2.2.1 < a.2.2.1)
    else if a.2.2.2.1 ≠ b.2.2.2.1 then decide (b.2.2.2.1 < a.2.2.2.1)
    else decide (a.2.2.2.2 ≤ b.2.2.2.2)) rankings
  { s with winner := some (sorted.getD 0 (HouseName.Stark, 0, 0, 0, 0)).1 }

/-- engine.rs cleanup_round. -/
def cleanup_round (s : GameState) : GameState :=
  let s1 := { s with areas := s.areas.map (fun (a : AreaState) =>
    { a with order := none,
             units := a.units.map (fun (u : Unit) => { u with routed := false }) }) }
  let s2 := s1.playing_houses.foldl
    (fun (st : GameState) h => st.updateHouse h (fun p => { p with used_order_tokens := [] }))
    s1
  let s3 := { s2 with valyrian_steel_blade_used := false,
                      messenger_raven_used := false,
                      order_restrictions := [], star_order_restrictions := [],
                      round := s2.round + 1 }
  if 10 < s3.round then resolve_tiebreaker s3
  else { s3 with phase := .Westeros, westeros_step := 0 }

end GoT

namespace GoT

-- ── Engine: combat (engine.rs) ─────────────────────────────────────────

/-- HashMap::insert on the support-decisions map (replaces any previous
value for the key). -/
def addSupportDecision (s : GameState) (adj : AreaId) (choice : SupportChoice) :
    GameState :=
  match s.combat with
  | some c =>
    { s with combat := some (
      { c with support_decisions :=
          (c.support_decisions.filter (fun pr => pr.1 ≠ adj)) ++ [(adj, choice)] }) }
  | none => s

/-- engine.rs begin_combat. -/
def begin_combat (s : GameState) (attacker defender : HouseName)
    (area_id : AreaId) (attacking_units : List Unit) (march_from : AreaId) :
    GameState :=
  let defending_units := (s.area area_id).units
  let support_houses := (areaDef area_id).adjacent.filterMap (fun adj =>
    match (s.area adj).order with
    | some order =>
      if order.order_type = OrderType.Support then
        match (s.area adj).house with
        | some h => if h ≠ attacker ∧ h ≠ defender then some (adj, h) else none
        | none => none
      else none
    | none => none)
  let combat : CombatState :=
    { attacker := attacker, defender := defender, area_id := area_id,
      attacking_units := attacking_units, defending_units := defending_units,
      attacker_card := none, defender_card := none,
      attacker_strength := 0, defender_strength := 0,
      march_from_area := some march_from,
      attacker_used_blade := false, defender_used_blade := false,
      support_decisions := [],
      phase := if support_houses.isEmpty then .Cards else .Support,
      aeron_resolved := false, tyrion_resolved := false,
      pending_support_houses := support_houses }
  let s2 := { s with combat := some combat }
  let s3 := (areaDef area_id).adjacent.foldl
    (fun (st : GameState) adj =>
      match (st.area adj).order with
      | some order =>
        if order.order_type = OrderType.Support then
          if (st.area adj).house = some attacker then
            addSupportDecision st adj .Attacker
          else if (st.area adj).house = some defender then
            addSupportDecision st adj .Defender
          else st
        else st
      | none => st)
    s2
  { s3 with phase := .Combat }

/-- Attacking-unit strength: siege engines count 4 only against a castle
or stronghold area (engine.rs resolve_combat_final). -/
def atk_unit_strength (area_id : AreaId) (units : List Unit) : Int :=
  (units.map (fun u =>
    if u.unit_type = UnitType.SiegeEngine
        ∧ (areaDef area_id).has_castle_or_stronghold = true then
      (4 : Int)
    else (u.unit_type.combat_strength : Int))).sum

/-- Defending-unit strength (engine.rs resolve_combat_final). -/
def def_unit_strength (units : List Unit) : Int :=
  (units.map (fun u => (u.unit_type.combat_strength : Int))).sum

/-- Allocated support strength for attacker and defender: supporting
order strength plus the supporting area's unit strength (engine.rs
resolve_combat_final). -/
def support_strengths (s : GameState) (decisions : List (AreaId × SupportChoice)) :
    Int × Int :=
  decisions.foldl
    (fun (acc : Int × Int) pr =>
      let (sup_area, choice) := pr
      if choice = SupportChoice.None then acc
      else
        let sup := s.area sup_area
        let sup_order : Int := match sup.order with
          | some o => o.strength
          | none => 0
        let sup_units : Int :=
          (sup.units.map (fun u => (u.unit_type.combat_strength : Int))).sum
        let total := sup_order + sup_units
        match choice with
        | .Attacker => (acc.1 + total, acc.2)
        | .Defender => (acc.1, acc.2 + total)
        | .None => acc)
    (0, 0)

/-- Total combat strengths (attacker, defender) exactly as computed by
engine.rs resolve_combat_final lines 902-972.  The Rust guards the card
lookup with a hand/discard membership test that is short-circuited by
"|| true", so a selected card id is always looked up. -/
def combat_totals (s : GameState) (c : CombatState) : Int × Int :=
  let atk_card := c.attacker_card.map get_house_card
  let def_card := c.defender_card.map get_house_card
  let atk_unit_str := atk_unit_strength c.area_id c.attacking_units
  let def_unit_str := def_unit_strength c.defending_units
  let atk_card_str : Int := match atk_card with
    | some cd => (cd.strength : Int)
    | none => 0
  let def_card_str : Int := match def_card with
    | some cd => (cd.strength : Int)
    | none => 0
  let march_bonus : Int :=
    match c.march_from_area with
    | some f =>
      match (s.area f).order with
      | some o => o.strength
      | none => 0
    | none => 0
  let defense_bonus : Int := match (s.area c.area_id).order with
    | some o => if o.order_type = OrderType.Defense then o.strength else 0
    | none => 0
  let garrison_str : Int := match s.garrisons c.area_id with
    | some g => if g.house = c.defender then (g.strength : Int) else 0
    | none => 0
  let support := support_strengths s c.support_decisions
  let atk_blade : Int := if c.attacker_used_blade then 1 else 0
  let def_blade : Int := if c.defender_used_blade then 1 else 0
  let atk_ability : Int :=
    if c.attacker_card = some HouseCardId.CatelynStark then
      ((s.house c.attacker).discards.length : Int)
    else 0
  let def_ability : Int :=
    if c.defender_card = some HouseCardId.CatelynStark then
      ((s.house c.defender).discards.length : Int)
    else 0
  (atk_unit_str + atk_card_str + march_bonus + support.1 + atk_blade + atk_ability,
   def_unit_str + def_card_str + defense_bonus + garrison_str + support.2
     + def_blade + def_ability)

/-- Casualty loop of engine.rs resolve_combat_final: remove up to n units
from the front of the list, returning each to the owner's unbuilt pool;
yields the updated state and the surviving remainder. -/
def killCasualties (house : HouseName) :
    Nat → List Unit → GameState → GameState × List Unit
  | 0, us, s => (s, us)
  | _ + 1, [], s => (s, [])
  | n + 1, u :: us, s =>
    killCasualties house n us
      (s.updateHouse house (fun p =>
        { p with available_units := (p.available_units.setCount u.unit_type
            (p.available_units.get u.unit_type + 1)) }))

/-- Return a list of destroyed units to the owner's unbuilt pool. -/
def destroyUnits (house : HouseName) (units : List Unit) (s : GameState) :
    GameState :=
  units.foldl
    (fun (st : GameState) u =>
      st.updateHouse house (fun p =>
        { p with available_units := (p.available_units.setCount u.unit_type
            (p.available_units.get u.unit_type + 1)) }))
    s

/-- engine.rs finalize_combat. -/
def finalize_combat (s : GameState) : GameState :=
  let s1 := match s.combat with
    | some c =>
      match c.march_from_area with
      | some f => s.setArea f { s.area f with order := none }
      | none => s
    | none => s
  let s2 := { s1 with combat := none, phase := .Action }
  let pc := s2.playing_houses.length
  let s3 := { s2 with action_player_index := (s2.action_player_index + 1) % pc }
  check_victory s3

/-- Conditional return of a Roose Bolton discard to the hand (engine.rs
resolve_combat_final, both branches). -/
def rooseBoltonReturn (house : HouseName) (s : GameState) : GameState :=
  if (s.house house).discards.contains HouseCardId.RooseBolton then
    s.updateHouse house (fun p =>
      { p with discards := p.discards.erase HouseCardId.RooseBolton,
               hand := p.hand ++ [HouseCardId.RooseBolton] })
  else s

/-- Tywin Lannister: the winner takes up to 2 power from the loser
(engine.rs resolve_combat_final, both branches). -/
def tywinSteal (winner loser : HouseName) (s : GameState) : GameState :=
  let steal := Nat.min (s.house loser).power 2
  let s2 := s.updateHouse loser (fun p => { p with power := p.power - steal })
  s2.updateHouse winner (fun p => { p with power := p.power + steal })

/-- Board mutations of the attacker-victory branch of engine.rs
resolve_combat_final: kill casualties, clear the defenders out of the
contested area, move the attackers in, transfer control, then the Roose
Bolton and Tywin Lannister effects; returns the updated state and the
surviving defenders. -/
def awBoard (s1 : GameState) (c : CombatState) (casualties : Nat) :
    GameState × List Unit :=
  let killed := killCasualties c.defender casualties c.defending_units s1
  let s2 := killed.1
  let area := s2.area c.area_id
  let newUnits := area.units.filter (fun u => u.house ≠ c.defender)
    ++ c.attacking_units
  let s3 := s2.setArea c.area_id
    { area with units := newUnits, house := some c.attacker }
  let s4 := if c.defender_card = some HouseCardId.RooseBolton then
      rooseBoltonReturn c.defender s3
    else s3
  let s5 := if c.attacker_card = some HouseCardId.TywinLannister then
      tywinSteal c.attacker c.defender s4
    else s4
  (s5, killed.2)

/-- Attacker-victory branch of engine.rs resolve_combat_final (from the
casualty loop to the branch end), starting from the state s1 that already
carries the computed strengths. -/
def resolveAttackerWins (s1 : GameState) (c : CombatState) (casualties : Nat) :
    GameState :=
  let defender := c.defender
  let attacker := c.attacker
  let area_id := c.area_id
  let pre := awBoard s1 c casualties
  let s5 := pre.1
  let remaining_defenders := pre.2
  if c.attacker_card = some HouseCardId.CerseiLannister then
    check_victory { s5 with pending := some (.CerseiRemoveOrder defender) }
  else
    let robb_options := find_retreat_areas s5 area_id defender
    if c.attacker_card = some HouseCardId.RobbStark ∧ robb_options ≠ []
        ∧ remaining_defenders ≠ [] then
      check_victory
        { s5 with pending := some (.RobbRetreat attacker robb_options) }
    else
      let afterRetreat : GameState × Bool :=
        if remaining_defenders ≠ [] then
          let retreat_options := find_retreat_areas s5 area_id defender
          if retreat_options = [] then
            (destroyUnits defender remaining_defenders s5, false)
          else
            ({ s5 with pending := some (
                .Retreat defender remaining_defenders area_id
                  retreat_options) }, true)
        else (s5, false)
      let s6 := afterRetreat.1
      if afterRetreat.2 then check_victory s6
      else
        if c.attacker_card = some HouseCardId.Patchface
            ∧ (s6.house defender).hand ≠ [] then
          check_victory { s6 with pending := some (
            .PatchfaceDiscard defender (s6.house defender).hand) }
        else if c.defender_card = some HouseCardId.DoranMartell then
          check_victory { s6 with pending := some (.DoranChooseTrack attacker) }
        else
          finalize_combat s6

/-- Defender-victory branch of engine.rs resolve_combat_final. -/
def resolveDefenderWins (s1 : GameState) (c : CombatState) (casualties : Nat) :
    GameState :=
  let defender := c.defender
  let attacker := c.attacker
  let area_id := c.area_id
  let killed := killCasualties attacker casualties c.attacking_units s1
  let s2 := killed.1
  let remaining_attackers := killed.2
  let s3 := if c.attacker_card = some HouseCardId.RooseBolton then
      rooseBoltonReturn attacker s2
    else s2
  let s4 := if c.defender_card = some HouseCardId.TywinLannister then
      tywinSteal defender attacker s3
    else s3
  if c.defender_card = some HouseCardId.CerseiLannister then
    check_victory { s4 with pending := some (.CerseiRemoveOrder attacker) }
  else
    let from_ := c.march_from_area.getD area_id
    let s5 := remaining_attackers.foldl
      (fun (st : GameState) u =>
        st.setArea from_
          { st.area from_ with units :=
              (st.area from_).units ++ [{ u with routed := true }] })
      s4
    if c.defender_card = some HouseCardId.Patchface
        ∧ (s5.house attacker).hand ≠ [] then
      check_victory { s5 with pending := some (
        .PatchfaceDiscard attacker (s5.house attacker).hand) }
    else if c.attacker_card = some HouseCardId.DoranMartell then
      check_victory { s5 with pending := some (.DoranChooseTrack defender) }
    else
      finalize_combat s5

/-- engine.rs resolve_combat_final: write the computed strengths into the
combat state, decide the winner (ties break to the better Fiefdoms
position), compute casualties and run the winning branch. -/
def resolve_combat_final (s : GameState) : GameState :=
  match s.combat with
  | none => { s with phase := .Action }
  | some c =>
    let atk_card := c.attacker_card.map get_house_card
    let def_card := c.defender_card.map get_house_card
    let totals := combat_totals s c
    let atk_total := totals.1
    let def_total := totals.2
    let s1 := { s with combat := some (
      { c with attacker_strength := atk_total, defender_strength := def_total }) }
    let atk_fiefdoms := (s1.house c.attacker).fiefdoms
    let def_fiefdoms := (s1.house c.defender).fiefdoms
    let attacker_wins := def_total < atk_total
      ∨ (atk_total = def_total ∧ atk_fiefdoms < def_fiefdoms)
    let atk_swords := match atk_card with
      | some cd => cd.swords
      | none => 0
    let def_swords := match def_card with
      | some cd => cd.swords
      | none => 0
    let atk_forts := match atk_card with
      | some cd => cd.fortifications
      | none => 0
    let def_forts := match def_card with
      | some cd => cd.fortifications
      | none => 0
    let winner_swords := if attacker_wins then atk_swords else def_swords
    let loser_forts := if attacker_wins then def_forts else atk_forts
    let casualties := winner_swords - loser_forts
    if attacker_wins then resolveAttackerWins s1 c casualties
    else resolveDefenderWins s1 c casualties

end GoT

namespace GoT

-- ── Engine: the advance state machine (engine.rs) ──────────────────────

/-- Outcome of one scan cycle of the action-phase player loop. -/
inductive ScanOutcome where
  | pendingSet (s : GameState)
  | cpResolved (s : GameState)
  | nothing

/-- Player-cycling scan of engine.rs advance_action_phase: starting from
start_idx, look at up to remaining more players for an unresolved order of
the current sub-phase type. -/
def action_scan (s : GameState) (start_idx : Nat) : Nat → Nat → ScanOutcome
  | _, 0 => .nothing
  | checked, remaining + 1 =>
    let pc := s.playing_houses.length
    let idx := (start_idx + checked) % pc
    let house := s.turn_order.getD idx .Stark
    match s.action_sub_phase with
    | .Raid =>
      match find_first_order_area s house .Raid with
      | some from_ =>
        .pendingSet
          { s with
            action_player_index := idx,
            pending := some (.ChooseRaid house from_ (find_raid_targets s from_ house)) }
      | none => action_scan s start_idx (checked + 1) remaining
    | .March =>
      match find_first_order_area s house .March with
      | some from_ =>
        .pendingSet
          { s with
            action_player_index := idx,
            pending := some (.ChooseMarch house from_ (valid_destinations s from_ house)) }
      | none => action_scan s start_idx (checked + 1) remaining
    | .ConsolidatePower =>
      match find_first_order_area s house .ConsolidatePower with
      | some area_id =>
        let s2 := resolve_single_consolidate_power s house area_id
        .cpResolved { s2 with action_player_index := (idx + 1) % pc }
      | none => action_scan s start_idx (checked + 1) remaining
    | .Done => .nothing

/-- Successor sub-phase (engine.rs advance_action_phase). -/
def nextSubPhase : ActionSubPhase → ActionSubPhase
  | .Raid => .March
  | .March => .ConsolidatePower
  | .ConsolidatePower => .Done
  | .Done => .Done

mutual

/-- engine.rs advance: push the state forward until a decision is needed.
The fuel bounds the recursion; with fuel 0 the state is returned as-is. -/
def advance : Nat → GameState → GameState
  | 0, s => s
  | fuel + 1, s =>
    if s.pending.isSome || s.winner.isSome then s
    else
      match s.phase with
      | .Westeros => advance_westeros fuel s
      | .Planning => advance_planning fuel s
      | .Action => action_loop fuel s
      | .Combat => advance_combat fuel s

/-- engine.rs advance_westeros (entry: ongoing bidding or mustering, then
the card draw). -/
def advance_westeros : Nat → GameState → GameState
  | 0, s => s
  | fuel + 1, s =>
    let sB := if s.bidding.isSome then advance_bidding (fuel + 1) s else s
    if s.bidding.isSome && (sB.pending.isSome || sB.bidding.isSome) then sB
    else
      let sM := if 0 < sB.muster_house_idx then advance_mustering_step sB else sB
      if 0 < sB.muster_house_idx && (sM.pending.isSome || 0 < sM.muster_house_idx)
          then sM
      else
        let sD := if sM.westeros_step = 0 then
            let d := draw_westeros_cards sM
            { d with westeros_step := 1 }
          else sM
        westeros_card_loop fuel sD

/-- Card-resolution loop of engine.rs advance_westeros (steps 1-3; the
step counter moves before resolving so re-entry skips processed cards). -/
def westeros_card_loop : Nat → GameState → GameState
  | 0, s => s
  | fuel + 1, s =>
    if 1 ≤ s.westeros_step ∧ s.westeros_step ≤ 3 then
      let idx := s.westeros_step - 1
      if s.westeros_cards_drawn.length ≤ idx then
        westeros_card_loop fuel { s with westeros_step := s.westeros_step + 1 }
      else
        let card := s.westeros_cards_drawn.getD idx ⟨1, .LastDaysOfSummer, false⟩
        let s1 := { s with westeros_step := s.westeros_step + 1 }
        let s2 := resolve_westeros_card (fuel + 1) s1 card
        if s2.pending.isSome then s2
        else
          let sB := if s2.bidding.isSome then advance_bidding (fuel + 1) s2 else s2
          if s2.bidding.isSome && (sB.pending.isSome || sB.bidding.isSome) then sB
          else
            let sM := if 0 < sB.muster_house_idx then advance_mustering_step sB
              else sB
            if 0 < sB.muster_house_idx
                && (sM.pending.isSome || 0 < sM.muster_house_idx) then sM
            else westeros_card_loop fuel sM
    else
      advance fuel
        { s with westeros_cards_drawn := [], westeros_step := 0,
                 phase := .Planning }

/-- engine.rs advance_planning. -/
def advance_planning : Nat → GameState → GameState
  | 0, s => s
  | fuel + 1, s =>
    if s.pending.isSome || s.winner.isSome then s
    else
      match s.turn_order.find? (fun h => s.areas.any (fun a =>
        a.house = some h && !a.units.isEmpty && a.order.isNone)) with
      | some h => { s with pending := some (.PlaceOrders h) }
      | none =>
        if !s.messenger_raven_used then
          let raven_holder := find_track_holder s .KingsCourt
          { s with messenger_raven_used := true,
                   pending := some (.MessengerRaven raven_holder) }
        else
          advance fuel
            { s with phase := .Action, action_sub_phase := .Raid,
                     action_player_index := 0 }

/-- Outer loop of engine.rs advance_action_phase (the function checks
pending and winner once on entry, then loops over sub-phases; the loop
itself does not re-check pending, which matters when a consolidate-power
star resolution sets one). -/
def action_loop : Nat → GameState → GameState
  | 0, s => s
  | fuel + 1, s =>
    if s.action_sub_phase = ActionSubPhase.Done then
      let s2 := cleanup_round s
      if s2.winner.isNone then advance fuel s2 else s2
    else
      match action_scan s s.action_player_index 0 s.playing_houses.length with
      | .pendingSet s2 => s2
      | .cpResolved s2 => action_loop fuel s2
      | .nothing =>
        action_loop fuel
          { s with action_player_index := 0,
                   action_sub_phase := nextSubPhase s.action_sub_phase }

/-- engine.rs advance_combat. -/
def advance_combat : Nat → GameState → GameState
  | 0, s => s
  | fuel + 1, s =>
    if s.pending.isSome || s.winner.isSome then s
    else
      match s.combat with
      | none => advance fuel { s with phase := .Action }
      | some c =>
        match c.phase with
        | .Support =>
          match c.pending_support_houses.head? with
          | some pr =>
            { s with pending := some (
              .SupportDeclaration pr.2 pr.1 c.attacker c.defender) }
          | none =>
            advance_combat fuel { s with combat := some { c with phase := .Cards } }
        | .Cards =>
          if c.attacker_card.isNone then
            let available := (s.house c.attacker).hand
            if available.isEmpty then
              advance_combat fuel
                { s with combat := some (
                  { c with attacker_card := some .EddardStark }) }
            else
              { s with pending := some (.SelectHouseCard c.attacker available) }
          else if c.defender_card.isNone then
            let available := (s.house c.defender).hand
            if available.isEmpty then
              advance_combat fuel
                { s with combat := some (
                  { c with defender_card := some .EddardStark }) }
            else
              { s with pending := some (.SelectHouseCard c.defender available) }
          else
            advance_combat fuel
              { s with combat := some { c with phase := .PreCombat } }
        | .PreCombat =>
          let ac := c.attacker_card.getD .EddardStark
          let dc := c.defender_card.getD .EddardStark
          if !c.tyrion_resolved ∧ ac = HouseCardId.TyrionLannister then
            let s1 := { s with combat := some (
              { c with tyrion_resolved := true, defender_card := none }) }
            let s2 := s1.updateHouse c.defender (fun p =>
              { p with hand := p.hand ++ [dc], discards := p.discards.erase dc })
            { s2 with pending := some (.TyrionReplace c.defender) }
          else if !c.tyrion_resolved ∧ dc = HouseCardId.TyrionLannister then
            let s1 := { s with combat := some (
              { c with tyrion_resolved := true, attacker_card := none }) }
            let s2 := s1.updateHouse c.attacker (fun p =>
              { p with hand := p.hand ++ [ac], discards := p.discards.erase ac })
            { s2 with pending := some (.TyrionReplace c.attacker) }
          else
            let c1 := { c with tyrion_resolved := true }
            if !c1.aeron_resolved ∧ ac = HouseCardId.AeronDamphair
                ∧ 2 ≤ (s.house c.attacker).power then
              { s with combat := some { c1 with aeron_resolved := true },
                       pending := some (.AeronSwap c.attacker) }
            else if !c1.aeron_resolved ∧ dc = HouseCardId.AeronDamphair
                ∧ 2 ≤ (s.house c.defender).power then
              { s with combat := some { c1 with aeron_resolved := true },
                       pending := some (.AeronSwap c.defender) }
            else
              advance_combat fuel
                { s with combat := some (
                  { c1 with aeron_resolved := true, phase := .Resolution }) }
        | .Resolution =>
          let blade_holder := find_track_holder s .Fiefdoms
          if !s.valyrian_steel_blade_used
              ∧ (blade_holder = c.attacker ∨ blade_holder = c.defender) then
            { s with combat := some { c with phase := .PostCombat },
                     pending := some (.UseValyrianBlade blade_holder) }
          else
            advance_combat fuel
              { s with combat := some { c with phase := .PostCombat } }
        | .PostCombat => resolve_combat_final s

end

end GoT

namespace GoT

-- ── Engine: apply_action (engine.rs) ───────────────────────────────────

/-- Reconcile arm of engine.rs apply_action (lines 1585-1602): remove the
chosen unit (if its index is in range), return it to the pool, then scan
all playing houses for the first remaining violation. -/
def apply_reconcile (s : GameState) (house : HouseName) (aid : AreaId)
    (unit_idx : Nat) : GameState :=
  let s2 :=
    if unit_idx < (s.area aid).units.length then
      let u := (s.area aid).units.getD unit_idx ⟨.Footman, house, false⟩
      let s2 := s.setArea aid
        { s.area aid with units := (s.area aid).units.eraseIdx unit_idx }
      s2.updateHouse house (fun p =>
        { p with available_units := (p.available_units.setCount u.unit_type
            (p.available_units.get u.unit_type + 1)) })
    else s
  match reconcilePendingFor s2 s2.playing_houses with
  | some p => { s2 with pending := some p }
  | none => s2

/-- The (pending, action) match of engine.rs apply_action, operating on the
state after the pending slot has been taken.  Pairs not matched by any arm
fall through to the final catch-all, which does nothing (the taken pending
decision stays cleared). -/
def applyStep (s : GameState) (pending : PendingDecision) (action : Action) :
    GameState :=
  match pending, action with
  | .PlaceOrders house, .PlaceOrders orders =>
    let s2 := orders.foldl
      (fun (st : GameState) pr =>
        let token := ORDER_TOKENS.getD pr.2 ⟨.March, 0, false⟩
        st.setArea pr.1
          { st.area pr.1 with order := some (
            { order_type := token.order_type, strength := token.strength,
              star := token.star, house := house, token_index := pr.2 }) })
      s
    s2.updateHouse house (fun p => { p with used_order_tokens := [] })
  | .MessengerRaven house, .MessengerRaven swap =>
    match swap with
    | some pr =>
      let token := ORDER_TOKENS.getD pr.2 ⟨.March, 0, false⟩
      s.setArea pr.1
        { s.area pr.1 with order := some (
          { order_type := token.order_type, strength := token.strength,
            star := token.star, house := house, token_index := pr.2 }) }
    | none => s
  | .WesterosChoice card_name _ options, .WesterosChoice idx =>
    let choice := options.getD idx ""
    if card_name = "A Throne of Blades" then
      if choice = "Mustering" then { s with muster_house_idx := 1 }
      else resolve_supply_update s
    else if card_name = "Dark Wings, Dark Words" then
      if choice = "Clash of Kings" then begin_clash_of_kings s
      else resolve_game_of_thrones s
    else if card_name = "Put to the Sword" then
      let order_type : OrderType :=
        if idx = 0 then .March
        else if idx = 1 then .Defense
        else if idx = 2 then .Support
        else if idx = 3 then .Raid
        else if idx = 4 then .ConsolidatePower
        else .March
      { s with star_order_restrictions := s.star_order_restrictions ++ [order_type] }
    else s
  | .Bidding house _ _, .Bid amount =>
    let clamped := Nat.min amount (s.house house).power
    match s.bidding with
    | some bidding =>
      { s with bidding := some (
        { bidding with
          bids := (bidding.bids.filter (fun pr => pr.1 ≠ house)) ++ [(house, clamped)],
          next_bidder_idx := bidding.next_bidder_idx + 1 }) }
    | none => s
  | .Muster house _, .Muster actions =>
    let s2 := actions.foldl
      (fun (st : GameState) pr =>
        match pr.2 with
        | .Build unit_type =>
          if 0 < (st.house house).available_units.get unit_type then
            let st2 := st.updateHouse house (fun p =>
              { p with available_units := (p.available_units.setCount unit_type
                  (p.available_units.get unit_type - 1)) })
            st2.setArea pr.1
              { st2.area pr.1 with units :=
                  (st2.area pr.1).units ++ [⟨unit_type, house, false⟩] }
          else st
        | .Upgrade =>
          let has_knight := 0 < (st.house house).available_units.knights
          let area := st.area pr.1
          match area.units.findIdx? (fun u =>
            u.house = house ∧ u.unit_type = UnitType.Footman) with
          | some pos =>
            if has_knight then
              let old := area.units.getD pos ⟨.Footman, house, false⟩
              let st2 := st.setArea pr.1
                { area with units := (area.units.set pos
                    { old with unit_type := .Knight }) }
              st2.updateHouse house (fun p =>
                { p with available_units := (
                    { p.available_units with
                      knights := p.available_units.knights - 1,
                      footmen := p.available_units.footmen + 1 }) })
            else st
          | none => st)
      s
    if 0 < s2.muster_house_idx then
      { s2 with muster_house_idx := s2.muster_house_idx + 1 }
    else s2
  | .ChooseRaid _ from_ _, .Raid target =>
    let s3 := match target with
      | some target_id =>
        let s2 := match (s.area target_id).order with
          | some order =>
            if order.order_type = OrderType.ConsolidatePower then
              match (s.area target_id).house with
              | some target_house =>
                if 0 < (s.house target_house).power then
                  let raider := ((s.area from_).house).getD .Stark
                  (s.updateHouse target_house (fun p =>
                    { p with power := p.power - 1 })).updateHouse raider
                    (fun p => { p with power := p.power + 1 })
                else s
              | none => s
            else s
          | none => s
        s2.setArea target_id { s2.area target_id with order := none }
      | none => s
    let s4 := s3.setArea from_ { s3.area from_ with order := none }
    { s4 with action_player_index :=
        (s4.action_player_index + 1) % s4.playing_houses.length }
  | .ChooseMarch house from_ _, .March dst unit_indices =>
    let moving_units := unit_indices.filterMap (fun i => (s.area from_).units.get? i)
    let sorted_indices := sortBy (fun (a b : Nat) => decide (b ≤ a)) unit_indices
    let s2 := sorted_indices.foldl
      (fun (st : GameState) i =>
        if i < (st.area from_).units.length then
          st.setArea from_
            { st.area from_ with units := (st.area from_).units.eraseIdx i }
        else st)
      s
    let target_house := (s2.area dst).house
    let has_enemy_units := !(s2.area dst).units.isEmpty && target_house.isSome
      && target_house ≠ some house
    let has_garrison := match s2.garrisons dst with
      | some g => g.house ≠ house
      | none => false
    if has_enemy_units
        || (target_house.isSome && target_house ≠ some house && has_garrison) then
      begin_combat s2 house (target_house.getD .Stark) dst moving_units from_
    else
      let s3 := moving_units.foldl
        (fun (st : GameState) u =>
          st.setArea dst { st.area dst with units := (st.area dst).units ++ [u] })
        s2
      let s4 :=
        if (s3.area dst).house = none ∨ (s3.area dst).house = some house then
          s3.setArea dst { s3.area dst with house := some house }
        else s3
      if (s4.area from_).units.isEmpty ∧ (areaDef from_).is_land then
        { s4 with pending := some (.LeavePowerToken house from_) }
      else
        let s5 :=
          if (s4.area from_).units.isEmpty then
            s4.setArea from_ { s4.area from_ with house := none }
          else s4
        let s6 := s5.setArea from_ { s5.area from_ with order := none }
        let s7 := { s6 with action_player_index :=
          (s6.action_player_index + 1) % s6.playing_houses.length }
        check_victory s7
  | .ChooseMarch _ from_ _, .MarchSkip =>
    let s2 := s.setArea from_ { s.area from_ with order := none }
    { s2 with action_player_index :=
        (s2.action_player_index + 1) % s2.playing_houses.length }
  | .LeavePowerToken house area_id, .LeavePowerToken leave =>
    let s2 :=
      if leave ∧ 0 < (s.house house).power then
        s.updateHouse house (fun p => { p with power := p.power - 1 })
      else
        s.setArea area_id { s.area area_id with house := none }
    let s3 := s2.setArea area_id { s2.area area_id with order := none }
    { s3 with action_player_index :=
        (s3.action_player_index + 1) % s3.playing_houses.length }
  | .SelectHouseCard house _, .SelectCard card_id =>
    let s2 := match s.combat with
      | some combat =>
        if house = combat.attacker then
          { s with combat := some { combat with attacker_card := some card_id } }
        else
          { s with combat := some { combat with defender_card := some card_id } }
      | none => s
    s2.updateHouse house (fun p =>
      { p with hand := p.hand.erase card_id, discards := p.discards ++ [card_id] })
  | .SupportDeclaration _ area_id _ _, .DeclareSupport choice =>
    match s.combat with
    | some combat =>
      { s with combat := some (
        { combat with
          support_decisions :=
            (combat.support_decisions.filter (fun pr => pr.1 ≠ area_id))
              ++ [(area_id, choice)],
          pending_support_houses :=
            combat.pending_support_houses.filter (fun pr => pr.1 ≠ area_id) }) }
    | none => s
  | .UseValyrianBlade house, .UseValyrianBlade use_it =>
    if use_it then
      let s2 := { s with valyrian_steel_blade_used := true }
      match s2.combat with
      | some combat =>
        if house = combat.attacker then
          { s2 with combat := some { combat with attacker_used_blade := true } }
        else
          { s2 with combat := some { combat with defender_used_blade := true } }
      | none => s2
    else s
  | .Retreat house _ from_area _, .Retreat dst =>
    let units := (s.area from_area).units.filter (fun u => u.house = house)
    let s2 := s.setArea from_area
      { s.area from_area with units :=
          (s.area from_area).units.filter (fun u => u.house ≠ house) }
    let s3 := units.foldl
      (fun (st : GameState) u =>
        st.setArea dst
          { st.area dst with units := (st.area dst).units ++ [{ u with routed := true }] })
      s2
    let s4 :=
      if (s3.area dst).house = none then
        s3.setArea dst { s3.area dst with house := some house }
      else s3
    finalize_combat s4
  | .TyrionReplace opponent, .TyrionReplace new_card =>
    let s2 := match s.combat with
      | some combat =>
        if opponent = combat.attacker then
          { s with combat := some { combat with attacker_card := some new_card } }
        else
          { s with combat := some { combat with defender_card := some new_card } }
      | none => s
    s2.updateHouse opponent (fun p =>
      { p with hand := p.hand.erase new_card, discards := p.discards ++ [new_card] })
  | .AeronSwap house, .AeronSwap new_card =>
    match new_card with
    | some new_id =>
      let s2 := s.updateHouse house (fun p => { p with power := p.power - 2 })
      let old_card := match s2.combat with
        | some combat =>
          if house = combat.attacker then combat.attacker_card
          else combat.defender_card
        | none => none
      let s3 := match old_card with
        | some old =>
          s2.updateHouse house (fun p =>
            { p with discards := p.discards.erase old, hand := p.hand ++ [old] })
        | none => s2
      let s4 := match s3.combat with
        | some combat =>
          if house = combat.attacker then
            { s3 with combat := some { combat with attacker_card := some new_id } }
          else
            { s3 with combat := some { combat with defender_card := some new_id } }
        | none => s3
      s4.updateHouse house (fun p =>
        { p with hand := p.hand.erase new_id, discards := p.discards ++ [new_id] })
    | none => s
  | .RobbRetreat _ _, .RobbRetreat dst =>
    let s4 := match s.combat with
      | some combat =>
        let defender := combat.defender
        let area_id := combat.area_id
        let units := (s.area area_id).units.filter (fun u => u.house = defender)
        let s2 := s.setArea area_id
          { s.area area_id with units :=
              (s.area area_id).units.filter (fun u => u.house ≠ defender) }
        let s3 := units.foldl
          (fun (st : GameState) u =>
            st.setArea dst
              { st.area dst with units :=
                  (st.area dst).units ++ [{ u with routed := true }] })
          s2
        if (s3.area dst).house = none then
          s3.setArea dst { s3.area dst with house := some defender }
        else s3
      | none => s
    finalize_combat s4
  | .CerseiRemoveOrder _, .CerseiRemoveOrder area_id =>
    finalize_combat (s.setArea area_id { s.area area_id with order := none })
  | .PatchfaceDiscard opponent _, .PatchfaceDiscard card_id =>
    finalize_combat (s.updateHouse opponent (fun p =>
      { p with hand := p.hand.erase card_id, discards := p.discards ++ [card_id] }))
  | .DoranChooseTrack opponent, .DoranChooseTrack track =>
    let pc := s.playing_houses.length
    let old_pos := trackPos s track opponent
    let s2 := s.playing_houses.foldl
      (fun (st : GameState) h =>
        if old_pos < trackPos st track h then
          setTrackPos track h (trackPos st track h - 1) st
        else st)
      s
    let s3 := setTrackPos track opponent pc s2
    let s4 :=
      if track = Track.IronThrone then
        { s3 with turn_order := (sortBy
          (fun a b => decide ((s3.house a).iron_throne ≤ (s3.house b).iron_throne))
          s3.playing_houses) }
      else s3
    finalize_combat s4
  | .QueenOfThornsRemoveOrder _, .QueenOfThorns area_id =>
    s.setArea area_id { s.area area_id with order := none }
  | .Reconcile house _ _ _, .Reconcile aid unit_idx =>
    apply_reconcile s house aid unit_idx
  | .WildlingPenaltyChoice _ _, .WildlingPenalty _ => s
  | _, _ => s

/-- engine.rs apply_action: take the pending decision (clearing the slot),
run the matching arm, then advance again if no new decision was posted.
A missing pending decision returns immediately; a mismatched
(pending, action) pair falls into the catch-all arm of applyStep, leaving
the pending slot cleared. -/
def apply_action (fuel : Nat) (s : GameState) (action : Action) : GameState :=
  match s.pending with
  | none => s
  | some p =>
    let s2 := applyStep { s with pending := none } p action
    if s2.pending.isNone then advance fuel s2 else s2

end GoT

namespace GoT

-- ── Concrete fixtures used by the claim theorems ───────────────────────

/-- A compact three-house profile table for concrete states: positions are
a permutation of 1..3 on every track, supply and power are small. -/
def baseProfile (h : HouseName) (it fd kc supply power : Nat) : HouseProfile :=
  { name := h, iron_throne := it, fiefdoms := fd, kings_court := kc,
    supply := supply, power := power, available_units := ⟨8, 4, 5, 2⟩,
    hand := [], discards := [], used_order_tokens := [] }

def baseHouses : HouseName → HouseProfile := fun h =>
  match h with
  | .Stark => baseProfile .Stark 1 1 2 1 5
  | .Lannister => baseProfile .Lannister 2 2 1 2 5
  | .Baratheon => baseProfile .Baratheon 3 3 3 2 5
  | other => absentProfile other

def emptyAreas : List AreaState := List.replicate NUM_AREAS AreaState.default

/-- Board with the given (id, state) overrides on an otherwise empty map. -/
def areasWith (l : List (AreaId × AreaState)) : List AreaState :=
  l.foldl (fun (as_ : List AreaState) pr => as_.set pr.1 pr.2) emptyAreas

/-- A quiet three-player mid-game state used as the base of the concrete
fixtures. -/
def baseState : GameState :=
  { round := 2, phase := .Planning, action_sub_phase := .Raid,
    action_player_index := 0, houses := baseHouses, areas := emptyAreas,
    turn_order := [.Stark, .Lannister, .Baratheon], wildling_threat := 2,
    garrisons := fun _ => none, valyrian_steel_blade_used := false,
    messenger_raven_used := false, westeros_deck_1 := [],
    westeros_deck_2 := [], westeros_deck_3 := [], wildling_deck := [],
    order_restrictions := [], star_order_restrictions := [], combat := none,
    bidding := none, westeros_cards_drawn := [], westeros_step := 0,
    muster_house_idx := 0, seed := 0, rng_counter := 0, pending := none,
    winner := none, playing_houses := [.Stark, .Lannister, .Baratheon] }

/-- Planning-phase state where every ordered area is placed and the raven
has not been used; the only remaining planning step is the raven offer. -/
def planningIdleState : GameState :=
  { baseState with pending := some (.PlaceOrders .Stark) }

/-- Planning-phase state at the raven decision in round 10, with a single
Stark defense order on Winterfell. -/
def ravenState : GameState :=
  { baseState with
    round := 10,
    messenger_raven_used := true,
    pending := some (.MessengerRaven .Lannister),
    areas := areasWith
      [ (WINTERFELL,
         { units := [⟨.Footman, .Stark, false⟩],
           order := some ⟨.Defense, 1, false, .Stark, 3⟩,
           house := some .Stark, blocked := false }) ] }

/-- Combat at Winterfell about to resolve: Lannister knight attacking two
Stark footmen, march order of strength 1 on the Castle Black origin,
Tywin Lannister against Eddard Stark (attacker total 7 against 6). -/
def retreatCombat : CombatState :=
  { attacker := .Lannister, defender := .Stark, area_id := WINTERFELL,
    attacking_units := [⟨.Knight, .Lannister, false⟩],
    defending_units := [⟨.Footman, .Stark, false⟩, ⟨.Footman, .Stark, false⟩],
    attacker_card := some .TywinLannister, defender_card := some .EddardStark,
    attacker_strength := 0, defender_strength := 0,
    march_from_area := some CASTLE_BLACK, attacker_used_blade := false,
    defender_used_blade := false, support_decisions := [],
    phase := .PostCombat, aeron_resolved := true, tyrion_resolved := true,
    pending_support_houses := [] }

def retreatState : GameState :=
  { baseState with
    round := 10, phase := .Combat, action_sub_phase := .March,
    combat := some retreatCombat,
    areas := areasWith
      [ (CASTLE_BLACK,
         { units := [], order := some ⟨.March, 1, true, .Lannister, 2⟩,
           house := some .Lannister, blocked := false }),
        (WINTERFELL,
         { units := [⟨.Footman, .Stark, false⟩, ⟨.Footman, .Stark, false⟩],
           order := none, house := some .Stark, blocked := false }) ] }

/-- Total number of a house's units anywhere on the board. -/
def unitsOfHouseOnBoard (s : GameState) (h : HouseName) : Nat :=
  (s.areas.map (fun a => (a.units.filter (fun u => u.house = h)).length)).sum

/-- End-of-round state in round 5 with the Valyrian Steel Blade already
used this game, one Stark footman on Winterfell and one Lannister footman
on Moat Cailin, and one harmless card on top of each Westeros deck. -/
def bladeRoundEndState : GameState :=
  { baseState with
    round := 5, phase := .Action, action_sub_phase := .Done,
    valyrian_steel_blade_used := true,
    messenger_raven_used := true,
    westeros_deck_1 := [⟨1, .Supply, false⟩],
    westeros_deck_2 := [⟨2, .GameOfThrones, false⟩],
    westeros_deck_3 := [⟨3, .SeaOfStorms, true⟩],
    areas := areasWith
      [ (WINTERFELL,
         { units := [⟨.Footman, .Stark, false⟩], order := none,
           house := some .Stark, blocked := false }),
        (MOAT_CAILIN,
         { units := [⟨.Footman, .Lannister, false⟩], order := none,
           house := some .Lannister, blocked := false }) ] }

/-- State carrying a pending Patchface discard: every player view receives
the decision payload, which lists the opponent's full hand. -/
def patchfaceState : GameState :=
  { baseState with
    houses := fun h =>
      if h = .Lannister then
        { baseHouses .Lannister with hand := [.TywinLannister] }
      else baseHouses h,
    phase := .Combat,
    pending := some (.PatchfaceDiscard .Lannister [.TywinLannister]) }

/-- Combat at King's Landing with Baratheon defending: under the setup
garrisons the placeholder owner of the neutral garrison is Baratheon, so
its strength 5 counts for the defender. -/
def kingsLandingCombat : CombatState :=
  { attacker := .Lannister, defender := .Baratheon, area_id := KINGS_LANDING,
    attacking_units := [⟨.Knight, .Lannister, false⟩],
    defending_units := [⟨.Footman, .Baratheon, false⟩],
    attacker_card := none, defender_card := none,
    attacker_strength := 0, defender_strength := 0,
    march_from_area := some HARRENHAL, attacker_used_blade := false,
    defender_used_blade := false, support_decisions := [],
    phase := .PostCombat, aeron_resolved := true, tyrion_resolved := true,
    pending_support_houses := [] }

def kingsLandingState : GameState :=
  { baseState with
    phase := .Combat,
    garrisons := (create_initial_state 6 42).garrisons,
    combat := some kingsLandingCombat,
    areas := areasWith
      [ (HARRENHAL,
         { units := [], order := none, house := some .Lannister,
           blocked := false }),
        (KINGS_LANDING,
         { units := [⟨.Footman, .Baratheon, false⟩], order := none,
           house := some .Baratheon, blocked := false }) ] }

/-- The same combat but with a defender the garrison placeholder does not
match: the garrison contributes nothing. -/
def kingsLandingCombatOther : CombatState :=
  { kingsLandingCombat with
    defender := .Stark,
    defending_units := [⟨.Footman, .Stark, false⟩] }

/-- Combat in the Cards sub-phase where the empty-handed attacker is about
to be given the EddardStark placeholder. -/
def emptyHandCombat : CombatState :=
  { attacker := .Lannister, defender := .Baratheon, area_id := MOAT_CAILIN,
    attacking_units := [⟨.Knight, .Lannister, false⟩],
    defending_units := [⟨.Footman, .Baratheon, false⟩, ⟨.Footman, .Baratheon, false⟩],
    attacker_card := none, defender_card := none,
    attacker_strength := 0, defender_strength := 0,
    march_from_area := some WINTERFELL, attacker_used_blade := false,
    defender_used_blade := false, support_decisions := [],
    phase := .Cards, aeron_resolved := false, tyrion_resolved := false,
    pending_support_houses := [] }

def emptyHandState : GameState :=
  { baseState with
    phase := .Combat,
    houses := fun h =>
      if h = .Baratheon then
        { baseHouses .Baratheon with hand := [.SalladhorSaan] }
      else baseHouses h,
    combat := some emptyHandCombat,
    areas := areasWith
      [ (MOAT_CAILIN,
         { units := [⟨.Footman, .Baratheon, false⟩, ⟨.Footman, .Baratheon, false⟩],
           order := none, house := some .Baratheon, blocked := false }) ] }

/-- PostCombat state where the attacker fights with the EddardStark
placeholder card (strength 4, two swords) against Salladhor Saan. -/
def placeholderResolveCombat : CombatState :=
  { emptyHandCombat with
    phase := .PostCombat, aeron_resolved := true, tyrion_resolved := true,
    attacker_card := some .EddardStark, defender_card := some .SalladhorSaan }

def placeholderResolveState : GameState :=
  { emptyHandState with
    round := 10,
    combat := some placeholderResolveCombat,
    houses := fun h =>
      if h = .Baratheon then
        { baseHouses .Baratheon with hand := [], discards := [.SalladhorSaan] }
      else baseHouses h }

/-- Supply-violating state: Stark has three footmen on Winterfell at
supply level 0 (slots [2, 2]) and a pending Reconcile decision. -/
def reconcileState : GameState :=
  { baseState with
    houses := fun h =>
      if h = .Stark then { baseHouses .Stark with supply := 0 } else baseHouses h,
    pending := some (.Reconcile .Stark WINTERFELL 3 2),
    areas := areasWith
      [ (WINTERFELL,
         { units := [⟨.Footman, .Stark, false⟩, ⟨.Footman, .Stark, false⟩,
             ⟨.Footman, .Stark, false⟩],
           order := none, house := some .Stark, blocked := false }) ] }

/-- State with threat 0 and a Wildling Attack card to resolve. -/
def wildlingNoopState : GameState :=
  { baseState with wildling_threat := 0, phase := .Westeros }

end GoT

namespace GoT

/-- Replace a house's hand wholesale, leaving everything else alone: the
probe state used to express that a player view does not depend on another
house's hand contents. -/
def withHand (s : GameState) (h : HouseName) (hand : List HouseCardId) :
    GameState :=
  s.updateHouse h (fun p => { p with hand := hand })

/-- Resolution-phase version of the Winterfell combat, used to show the
blade offer in a round after the flag has been reset. -/
def bladeReofferCombat : CombatState :=
  { retreatCombat with phase := .Resolution }

def bladeReofferState : GameState :=
  { retreatState with round := 6, combat := some bladeReofferCombat }

/-- Same combat but with the blade already used: no offer is made. -/
def bladeSkipState : GameState :=
  { bladeReofferState with valyrian_steel_blade_used := true }

/-- Planning-phase board with a hidden Stark order on Winterfell and a
hidden Lannister order on Moat Cailin. -/
def c2ViewState : GameState :=
  { baseState with
    areas := areasWith
      [ (WINTERFELL,
         { units := [⟨.Footman, .Stark, false⟩],
           order := some ⟨.Defense, 1, false, .Stark, 3⟩,
           house := some .Stark, blocked := false }),
        (MOAT_CAILIN,
         { units := [⟨.Footman, .Lannister, false⟩],
           order := some ⟨.Support, 0, false, .Lannister, 4⟩,
           house := some .Lannister, blocked := false }) ] }

/-- A completed Fiefdoms auction among the three playing houses. -/
def c6Bidding : BiddingState :=
  { bidding_type := .Fiefdoms,
    bids := [(.Stark, 1), (.Lannister, 0), (.Baratheon, 0)],
    current_track := some .Fiefdoms, remaining_tracks := [],
    bid_order := [.Stark, .Lannister, .Baratheon], next_bidder_idx := 3 }

def c6BidState : GameState := { baseState with bidding := some c6Bidding }

/-- Resolution combat at King's Landing between Lannister and Baratheon:
the Fiefdoms-track top holder (Stark) is not a combatant, so even with the
blade flag clear no offer is made. -/
def bladeNonHolderCombat : CombatState :=
  { kingsLandingCombat with phase := .Resolution }

def bladeNonHolderState : GameState :=
  { kingsLandingState with combat := some bladeNonHolderCombat }

/-- Cards sub-phase where the attacker's card is already selected and the
empty-handed defender is about to be given the EddardStark placeholder. -/
def emptyHandDefenderCombat : CombatState :=
  { emptyHandCombat with attacker_card := some .TywinLannister }

def emptyHandDefenderState : GameState :=
  { emptyHandState with
    houses := baseHouses,
    combat := some emptyHandDefenderCombat }

end GoT

namespace GoT

-- ── Helper lemmas: pending-slot preservation through combat resolution ──

theorem check_victory_pending (s : GameState) :
    (check_victory s).pending = s.pending := by
  unfold check_victory; split <;> rfl

theorem finalize_combat_pending (s : GameState) :
    (finalize_combat s).pending = s.pending := by
  unfold finalize_combat
  rw [check_victory_pending]
  split
  · split <;> rfl
  · rfl

theorem killCasualties_pending (h : HouseName) (n : Nat) (us : List Unit)
    (s : GameState) : (killCasualties h n us s).1.pending = s.pending := by
  induction n generalizing us s with
  | zero => rfl
  | succ k ih =>
    cases us with
    | nil => rfl
    | cons u rest => rw [killCasualties]; exact ih rest _

theorem destroyUnits_pending (h : HouseName) (us : List Unit) (s : GameState) :
    (destroyUnits h us s).pending = s.pending := by
  induction us generalizing s with
  | nil => rfl
  | cons u rest ih => exact (ih _).trans rfl

theorem rooseBoltonReturn_pending (h : HouseName) (s : GameState) :
    (rooseBoltonReturn h s).pending = s.pending := by
  unfold rooseBoltonReturn; split <;> rfl

theorem tywinSteal_pending (w l : HouseName) (s : GameState) :
    (tywinSteal w l s).pending = s.pending := rfl

theorem setArea_pending (s : GameState) (i : AreaId) (a : AreaState) :
    (s.setArea i a).pending = s.pending := rfl

theorem updateHouse_pending (s : GameState) (h : HouseName)
    (f : HouseProfile → HouseProfile) :
    (s.updateHouse h f).pending = s.pending := rfl

theorem foldRouted_pending (from_ : AreaId) (us : List Unit) (s : GameState) :
    (us.foldl
      (fun (st : GameState) u =>
        st.setArea from_
          { st.area from_ with units :=
              (st.area from_).units ++ [{ u with routed := true }] })
      s).pending = s.pending := by
  induction us generalizing s with
  | nil => rfl
  | cons u rest ih => exact (ih _).trans rfl

theorem awBoard_pending (s1 : GameState) (c : CombatState) (n : Nat) :
    (awBoard s1 c n).1.pending = s1.pending := by
  unfold awBoard
  simp only []
  split_ifs <;>
    simp only [rooseBoltonReturn_pending, tywinSteal_pending, setArea_pending,
      killCasualties_pending]

set_option maxHeartbeats 3200000 in
theorem resolveAttackerWins_no_blade (s1 : GameState) (c : CombatState)
    (n : Nat) (hh : HouseName) (hp : s1.pending = none) :
    (resolveAttackerWins s1 c n).pending ≠ some (.UseValyrianBlade hh) := by
  have h5 : (awBoard s1 c n).1.pending = none := (awBoard_pending _ _ _).trans hp
  unfold resolveAttackerWins
  simp only []
  split_ifs <;>
    simp only [check_victory_pending, finalize_combat_pending, destroyUnits_pending,
      h5] <;>
    simp

set_option maxHeartbeats 3200000 in
theorem resolveDefenderWins_no_blade (s1 : GameState) (c : CombatState)
    (n : Nat) (hh : HouseName) (hp : s1.pending = none) :
    (resolveDefenderWins s1 c n).pending ≠ some (.UseValyrianBlade hh) := by
  have h2 : (killCasualties c.attacker n c.attacking_units s1).1.pending = none :=
    (killCasualties_pending _ _ _ _).trans hp
  unfold resolveDefenderWins
  simp only []
  split_ifs <;>
    simp only [check_victory_pending, finalize_combat_pending, foldRouted_pending,
      killCasualties_pending, rooseBoltonReturn_pending, tywinSteal_pending,
      setArea_pending, updateHouse_pending, hp] <;>
    simp

theorem resolve_no_blade (s : GameState) (hh : HouseName) (hp : s.pending = none) :
    (resolve_combat_final s).pending ≠ some (.UseValyrianBlade hh) := by
  unfold resolve_combat_final
  cases hc : s.combat with
  | none => simp [hp]
  | some c =>
    simp only []
    split
    · exact resolveAttackerWins_no_blade _ _ _ _ hp
    · exact resolveDefenderWins_no_blade _ _ _ _ hp

theorem advance_pending_noop (fuel : Nat) (s : GameState)
    (h : s.pending.isSome = true) : advance fuel s = s := by
  cases fuel with
  | zero => rfl
  | succ n => simp [advance, h]

theorem advance_combat_post_no_blade (fuel : Nat) (t : GameState)
    (c : CombatState) (hh : HouseName) (hp : t.pending = none)
    (hw : t.winner = none) (hc : t.combat = some c)
    (hphase : c.phase = .PostCombat) :
    (advance_combat fuel t).pending ≠ some (.UseValyrianBlade hh) := by
  cases fuel with
  | zero =>
    rw [show advance_combat 0 t = t from rfl, hp]
    simp
  | succ k =>
    simp only [advance_combat, hp, hw, hc, hphase, Option.isSome_none,
      Bool.or_self, Bool.false_eq_true, if_false]
    exact resolve_no_blade t hh hp

-- ── Helper lemmas: round cleanup and the Action-phase round boundary ───

theorem resolve_tiebreaker_blade (s : GameState) :
    (resolve_tiebreaker s).valyrian_steel_blade_used
      = s.valyrian_steel_blade_used := rfl

theorem cleanup_round_blade (s : GameState) :
    (cleanup_round s).valyrian_steel_blade_used = false := by
  unfold cleanup_round
  simp only []
  split
  · rw [resolve_tiebreaker_blade]
  · rfl

theorem advance_done_cleanup (fuel : Nat) (s : GameState)
    (hp : s.pending = none) (hw : s.winner = none)
    (hphase : s.phase = .Action) (hsub : s.action_sub_phase = .Done)
    (hwin : (cleanup_round s).winner.isNone = true) :
    advance (fuel + 2) s = advance fuel (cleanup_round s) := by
  simp only [advance, hp, hw, Option.isSome_none, Bool.or_self,
    Bool.false_eq_true, if_false, hphase]
  simp only [action_loop, hsub, if_pos, hwin]

end GoT
namespace GoT

theorem insertBy_perm (cmp : α → α → Bool) (x : α) (l : List α) :
    (insertBy cmp x l).Perm (x :: l) := by
  induction l with
  | nil => exact List.Perm.refl _
  | cons y ys ih =>
    rw [insertBy]
    split
    · exact List.Perm.refl _
    · exact (List.Perm.cons y ih).trans (List.Perm.swap x y ys)

theorem sortBy_perm (cmp : α → α → Bool) (l : List α) : (sortBy cmp l).Perm l := by
  induction l with
  | nil => exact List.Perm.refl _
  | cons x xs ih => exact (insertBy_perm cmp x (sortBy cmp xs)).trans (ih.cons x)

theorem insertBy_map (f : α → β) (cmp : β → β → Bool) (x : α) (l : List α) :
    (insertBy (fun a b => cmp (f a) (f b)) x l).map f
      = insertBy cmp (f x) (l.map f) := by
  induction l with
  | nil => rfl
  | cons y ys ih =>
    by_cases hxy : cmp (f x) (f y) = true
    · simp [insertBy, hxy]
    · simp [insertBy, hxy, ih]

theorem sortBy_map (f : α → β) (cmp : β → β → Bool) (l : List α) :
    (sortBy (fun a b => cmp (f a) (f b)) l).map f = sortBy cmp (l.map f) := by
  induction l with
  | nil => rfl
  | cons x xs ih => rw [sortBy, insertBy_map, ih, List.map_cons, sortBy]

theorem filterMap_eq_range (l : List α) (d : α) (f : α → Option β) :
    l.filterMap f = (List.range l.length).filterMap (fun i => f (l.getD i d)) := by
  induction l with
  | nil => rfl
  | cons a as ih =>
    have e2 : (List.range as.length).filterMap
        ((fun i => f ((a :: as).getD i d)) ∘ Nat.succ)
        = (List.range as.length).filterMap (fun i => f (as.getD i d)) :=
      List.filterMap_congr (fun i _ => rfl)
    have e0 : (a :: as).getD 0 d = a := rfl
    rw [List.length_cons, List.range_succ_eq_map, List.filterMap_cons,
      List.filterMap_cons, List.filterMap_map, e0, e2, ← ih]

theorem armySizes_eq (s : GameState) (h : HouseName) :
    armySizes s h = (armiesWithAreas s h).map (fun pr => pr.2) := by
  unfold armySizes armiesWithAreas
  rw [filterMap_eq_range s.areas AreaState.default, List.map_filterMap]
  apply List.filterMap_congr
  intro i _
  show (if (s.area i).house = some h ∧ 2 ≤ (s.area i).units.length
      then some (s.area i).units.length else none)
    = Option.map (fun pr : Nat × Nat => pr.2)
        (if (s.area i).house = some h ∧ 2 ≤ (s.area i).units.length
          then some (i, (s.area i).units.length) else none)
  split <;> rfl

end GoT

namespace GoT

theorem violationsOf_ne_nil (ps : List (AreaId × Nat)) (ls : List Nat)
    (hmem : ∀ p ∈ ps, 2 ≤ p.2)
    (hv : armiesViolate (ps.map (fun pr => pr.2)) ls = true) :
    violationsOf ps ls ≠ [] := by
  induction ps generalizing ls with
  | nil => simp [armiesViolate] at hv
  | cons p rest ih =>
    cases ls with
    | nil =>
      have h2 : 2 ≤ p.2 := hmem p (List.mem_cons_self _ _)
      rw [violationsOf]
      rw [if_pos (by omega : 1 < p.2)]
      simp
    | cons l ls2 =>
      rw [violationsOf]
      rw [List.map_cons, armiesViolate] at hv
      rcases Bool.or_eq_true_iff.mp hv with h1 | h1
      · rw [if_pos (by simpa using h1)]
        simp
      · have := ih ls2 (fun q hq => hmem q (List.mem_cons_of_mem _ hq)) h1
        intro hcon
        rcases List.append_eq_nil.mp hcon with ⟨_, h3⟩
        exact this h3

theorem armiesWithAreas_mem (s : GameState) (h : HouseName) :
    ∀ p ∈ armiesWithAreas s h, 2 ≤ p.2 := by
  intro p hp
  unfold armiesWithAreas at hp
  rcases List.mem_filterMap.mp hp with ⟨i, _, hf⟩
  by_cases hcond : (s.area i).house = some h ∧ 2 ≤ (s.area i).units.length
  · rw [if_pos hcond] at hf
    cases hf
    exact hcond.2
  · rw [if_neg hcond] at hf
    cases hf

theorem check_violation_find_ne_nil (s : GameState) (h : HouseName)
    (hv : check_supply_violation s h = true) : find_violations s h ≠ [] := by
  unfold check_supply_violation at hv
  unfold find_violations
  apply violationsOf_ne_nil
  · intro p hp
    exact armiesWithAreas_mem s h p
      ((sortBy_perm _ (armiesWithAreas s h)).mem_iff.mp hp)
  · have e : (sortBy (fun a b => decide (b.2 < a.2)) (armiesWithAreas s h)).map
        (fun pr => pr.2)
        = sortBy (fun a b => decide (b < a)) (armySizes s h) := by
      rw [armySizes_eq]
      exact sortBy_map (fun pr : AreaId × Nat => pr.2) (fun a b => decide (b < a)) _
    rw [e]
    exact hv

theorem reconcilePendingFor_none (s : GameState) (hs : List HouseName)
    (hnone : reconcilePendingFor s hs = none) :
    ∀ h ∈ hs, check_supply_violation s h = false := by
  induction hs with
  | nil => intro h hh; cases hh
  | cons h0 rest ih =>
    intro h hh
    rw [reconcilePendingFor] at hnone
    by_cases hc : check_supply_violation s h0 = true
    · rw [if_pos hc] at hnone
      cases hhd : (find_violations s h0).head? with
      | some v => rw [hhd] at hnone; cases hnone
      | none =>
        exact absurd (List.head?_eq_none_iff.mp hhd)
          (check_violation_find_ne_nil s h0 hc)
    · rw [if_neg hc] at hnone
      rcases List.mem_cons.mp hh with rfl | hmem
      · exact Bool.eq_false_iff.mpr hc
      · exact ih hnone h hmem

end GoT

namespace GoT

theorem unitPool_get_setCount (p : UnitPool) (ut : UnitType) (n : Nat) :
    (p.setCount ut n).get ut = n := by
  cases ut <;> rfl


end GoT
namespace GoT

theorem trackPos_of_houses_eq {s s2 : GameState} (he : s.houses = s2.houses)
    (t : Track) (h : HouseName) : trackPos s t h = trackPos s2 t h := by
  cases t <;> simp [trackPos, GameState.house, he]

theorem trackPos_setTrackPos_same (t : Track) (h : HouseName) (pos : Nat)
    (s : GameState) : trackPos (setTrackPos t h pos s) t h = pos := by
  cases t <;> simp [trackPos, setTrackPos, GameState.updateHouse, GameState.house]

theorem trackPos_setTrackPos_other (t : Track) (h h2 : HouseName) (pos : Nat)
    (s : GameState) (hne : h2 ≠ h) :
    trackPos (setTrackPos t h pos s) t h2 = trackPos s t h2 := by
  cases t <;> simp [trackPos, setTrackPos, GameState.updateHouse, GameState.house, hne]

theorem trackPos_updatePower (s : GameState) (h h2 : HouseName) (b : Nat)
    (t : Track) :
    trackPos (s.updateHouse h (fun p => { p with power := p.power - b })) t h2
      = trackPos s t h2 := by
  cases t <;>
    simp only [trackPos, GameState.updateHouse, GameState.house] <;>
    split <;> simp_all

theorem assignTrackPositions_spec (t : Track) (l : List (HouseName × Nat × Nat)) :
    ∀ (pos : Nat) (s : GameState), (l.map (fun x => x.1)).Nodup →
      ((l.map (fun x => x.1)).map
          (fun h => trackPos (assignTrackPositions t pos l s) t h)
        = List.range' pos l.length)
      ∧ (∀ h, h ∉ l.map (fun x => x.1) →
          trackPos (assignTrackPositions t pos l s) t h = trackPos s t h) := by
  induction l with
  | nil =>
    intro pos s _
    exact ⟨rfl, fun h _ => rfl⟩
  | cons x rest ih =>
    intro pos s hnd
    rw [List.map_cons, List.nodup_cons] at hnd
    obtain ⟨hx, hnd2⟩ := hnd
    have hstep : assignTrackPositions t pos (x :: rest) s
        = assignTrackPositions t (pos + 1) rest
          ((setTrackPos t x.1 pos s).updateHouse x.1
            (fun p => { p with power := p.power - x.2.1 })) := rfl
    set s3 := (setTrackPos t x.1 pos s).updateHouse x.1
      (fun p => { p with power := p.power - x.2.1 }) with hs3
    have ihr := ih (pos + 1) s3 hnd2
    constructor
    · rw [List.map_cons, List.map_cons, List.length_cons, List.range'_succ]
      congr 1
      · rw [hstep, ihr.2 x.1 hx, hs3, trackPos_updatePower,
          trackPos_setTrackPos_same]
      · rw [hstep]; exact ihr.1
    · intro h hns
      rw [List.map_cons, List.mem_cons] at hns
      push_neg at hns
      rw [hstep, ihr.2 h hns.2, hs3, trackPos_updatePower,
        trackPos_setTrackPos_other t x.1 h pos s hns.1]

end GoT

namespace GoT

theorem assignTrackPositions_playing (t : Track) :
    ∀ (l : List (HouseName × Nat × Nat)) (pos : Nat) (s : GameState),
      (assignTrackPositions t pos l s).playing_houses = s.playing_houses := by
  intro l
  induction l with
  | nil => intro pos s; rfl
  | cons x rest ih => intro pos s; exact ih (pos + 1) _

theorem resolve_track_bidding_char (s : GameState) (b : BiddingState) (t : Track)
    (hb : s.bidding = some b) (ht : b.current_track = some t) :
    (resolve_track_bidding s).houses
      = (assignTrackPositions t 1
          (sortBy (fun a b2 =>
              decide (b2.2.1 < a.2.1) || (a.2.1 = b2.2.1 && decide (a.2.2 ≤ b2.2.2)))
            (b.bid_order.map (fun h =>
              (h, (b.bids.lookup h).getD 0,
                trackPos { s with bidding := none } t h))))
          { s with bidding := none }).houses
    ∧ (resolve_track_bidding s).playing_houses = s.playing_houses := by
  unfold resolve_track_bidding
  rw [hb]
  simp only []
  rw [ht]
  simp only []
  constructor
  · split
    · split <;> rfl
    · split <;> rfl
  · split
    · split
      · rw [assignTrackPositions_playing]
      · rw [assignTrackPositions_playing]
    · split
      · show (assignTrackPositions _ _ _ _).playing_houses = _
        rw [assignTrackPositions_playing]
      · show (assignTrackPositions _ _ _ _).playing_houses = _
        rw [assignTrackPositions_playing]

theorem resolve_track_bidding_perm (s : GameState) (b : BiddingState) (t : Track)
    (hb : s.bidding = some b) (ht : b.current_track = some t)
    (hperm : b.bid_order.Perm s.playing_houses)
    (hnd : s.playing_houses.Nodup) :
    ((resolve_track_bidding s).playing_houses.map
        (fun h => trackPos (resolve_track_bidding s) t h)).Perm
      (List.range' 1 s.playing_houses.length) := by
  obtain ⟨hh, hp⟩ := resolve_track_bidding_char s b t hb ht
  set s1 : GameState := { s with bidding := none } with hs1
  set triples := b.bid_order.map (fun h =>
    (h, (b.bids.lookup h).getD 0, trackPos s1 t h)) with htr
  set sorted := sortBy (fun a b2 =>
    decide (b2.2.1 < a.2.1) || (a.2.1 = b2.2.1 && decide (a.2.2 ≤ b2.2.2))) triples
    with hsorted
  have hph : sorted.Perm triples := sortBy_perm _ _
  have hmapfst : (sorted.map (fun x => x.1)).Perm b.bid_order := by
    have h2 := hph.map (fun x => x.1)
    rw [htr, List.map_map] at h2
    rw [show ((fun (x : HouseName × Nat × Nat) => x.1) ∘ fun h =>
        (h, (b.bids.lookup h).getD 0, trackPos s1 t h)) = id from rfl,
      List.map_id] at h2
    exact h2
  have hndbid : b.bid_order.Nodup := hperm.nodup_iff.mpr hnd
  have hnd2 : (sorted.map (fun x => x.1)).Nodup := hmapfst.nodup_iff.mpr hndbid
  have hspec := assignTrackPositions_spec t sorted 1 s1 hnd2
  have hlen : sorted.length = s.playing_houses.length := by
    rw [hph.length_eq, htr, List.length_map, hperm.length_eq]
  have hplsort : s.playing_houses.Perm (sorted.map (fun x => x.1)) :=
    (hmapfst.trans hperm).symm
  rw [hp]
  have hstep1 : (s.playing_houses.map
      (fun h => trackPos (resolve_track_bidding s) t h)).Perm
      ((sorted.map (fun x => x.1)).map
        (fun h => trackPos (resolve_track_bidding s) t h)) :=
    hplsort.map _
  have hstep2 : (sorted.map (fun x => x.1)).map
      (fun h => trackPos (resolve_track_bidding s) t h)
      = (sorted.map (fun x => x.1)).map
        (fun h => trackPos (assignTrackPositions t 1 sorted s1) t h) :=
    List.map_congr_left (fun h _ => trackPos_of_houses_eq hh t h)
  rw [hstep2, hspec.1, hlen] at hstep1
  exact hstep1

end GoT

namespace GoT

theorem range'_map_pred : ∀ (k a : Nat),
    (List.range' (a+1) k).map (fun p => p - 1) = List.range' a k := by
  intro k
  induction k with
  | zero => intro a; rfl
  | succ n ih =>
    intro a
    rw [List.range'_succ (a+1) n 1, List.map_cons, ih (a+1),
      List.range'_succ a n 1]
    norm_num

theorem map_demote_perm (n v : Nat) (hv1 : 1 ≤ v) (hv2 : v ≤ n) :
    ((List.range' 1 n).map
        (fun p => if p = v then n else if v < p then p - 1 else p)).Perm
      (List.range' 1 n) := by
  set f : Nat → Nat := fun p => if p = v then n else if v < p then p - 1 else p
    with hf
  have hdec : List.range' 1 n
      = List.range' 1 (v-1) ++ (v :: List.range' (v+1) (n-v)) := by
    have h1 := List.range'_append 1 (v-1) (n-v+1) 1
    have h2 : 1 + 1 * (v - 1) = v := by omega
    have h3 : (n - v + 1) + (v - 1) = n := by omega
    rw [h2, h3] at h1
    rw [← h1, List.range'_succ v (n-v) 1]
  have hmap1 : (List.range' 1 (v-1)).map f = List.range' 1 (v-1) := by
    have h : (List.range' 1 (v-1)).map f = (List.range' 1 (v-1)).map (fun p => p) := by
      apply List.map_congr_left
      intro p hp
      rw [List.mem_range'_1] at hp
      have hpv : p ≠ v := by omega
      have hvp : ¬ v < p := by omega
      simp [hf, hpv, hvp]
    simpa using h
  have hmap3 : (List.range' (v+1) (n-v)).map f = List.range' v (n-v) := by
    rw [show (List.range' (v+1) (n-v)).map f
        = (List.range' (v+1) (n-v)).map (fun p => p - 1) from ?_,
      range'_map_pred]
    apply List.map_congr_left
    intro p hp
    rw [List.mem_range'_1] at hp
    have hpv : p ≠ v := by omega
    have hvp : v < p := by omega
    simp [hf, hpv, hvp]
  have hfv : f v = n := by simp [hf]
  nth_rewrite 1 [hdec]
  rw [List.map_append, List.map_cons, hmap1, hmap3, hfv]
  have hstep : (n :: List.range' v (n-v)).Perm (List.range' v (n-v) ++ [n]) := by
    simpa using @List.perm_append_comm Nat [n] (List.range' v (n-v))
  have hjoin : List.range' 1 (v-1) ++ List.range' v (n-v)
      = List.range' 1 (n-1) := by
    have h1 := List.range'_append 1 (v-1) (n-v) 1
    have h2 : 1 + 1 * (v - 1) = v := by omega
    have h3 : (n - v) + (v - 1) = n - 1 := by omega
    rw [h2, h3] at h1
    exact h1
  have hlast : List.range' 1 (n-1) ++ [n] = List.range' 1 n := by
    have h1 := List.range'_append 1 (n-1) 1 1
    have h2 : 1 + 1 * (n - 1) = n := by omega
    have h3 : 1 + (n - 1) = n := by omega
    rw [h2, h3] at h1
    simpa using h1
  have hstep2 := List.Perm.append_left (List.range' 1 (v-1)) hstep
  rw [← List.append_assoc, hjoin, hlast] at hstep2
  exact hstep2

end GoT

namespace GoT

theorem demote_fold_spec (t : Track) (old : Nat) :
    ∀ (l : List HouseName) (s : GameState), l.Nodup → ∀ h : HouseName,
      trackPos (l.foldl
        (fun (st : GameState) h2 =>
          if old < trackPos st t h2 then
            setTrackPos t h2 (trackPos st t h2 - 1) st
          else st) s) t h
      = if h ∈ l ∧ old < trackPos s t h then trackPos s t h - 1
        else trackPos s t h := by
  intro l
  induction l with
  | nil =>
    intro s _ h
    simp
  | cons h0 rest ih =>
    intro s hnd h
    rw [List.nodup_cons] at hnd
    obtain ⟨h0nr, hndr⟩ := hnd
    rw [List.foldl_cons]
    set st1 := if old < trackPos s t h0 then
      setTrackPos t h0 (trackPos s t h0 - 1) s else s with hst1
    by_cases hh : h = h0
    · subst hh
      rw [ih st1 hndr h]
      have hnot : h ∉ rest := h0nr
      simp only [hnot, false_and, if_false]
      by_cases hcond : old < trackPos s t h
      · rw [hst1, if_pos hcond, trackPos_setTrackPos_same]
        simp [List.mem_cons, hcond]
      · rw [hst1, if_neg hcond]
        simp [List.mem_cons, hcond]
    · have hpres : trackPos st1 t h = trackPos s t h := by
        rw [hst1]
        split
        · exact trackPos_setTrackPos_other t h0 h _ s hh
        · rfl
      rw [ih st1 hndr h, hpres]
      simp [List.mem_cons, hh]

end GoT

namespace GoT

theorem setTrackPos_playing (t : Track) (h : HouseName) (p : Nat) (s : GameState) :
    (setTrackPos t h p s).playing_houses = s.playing_houses := by
  cases t <;> rfl

theorem check_victory_houses (s : GameState) :
    (check_victory s).houses = s.houses
    ∧ (check_victory s).playing_houses = s.playing_houses := by
  unfold check_victory
  split <;> exact ⟨rfl, rfl⟩

theorem finalize_combat_houses (s : GameState) :
    (finalize_combat s).houses = s.houses
    ∧ (finalize_combat s).playing_houses = s.playing_houses := by
  unfold finalize_combat
  simp only []
  constructor
  · rw [(check_victory_houses _).1]
    split
    · split <;> rfl
    · rfl
  · rw [(check_victory_houses _).2]
    split
    · split <;> rfl
    · rfl

theorem doran_demote_track_perm (s : GameState) (t : Track) (opp : HouseName)
    (hmem : opp ∈ s.playing_houses)
    (hnd : s.playing_houses.Nodup)
    (hperm : (s.playing_houses.map (fun h => trackPos s t h)).Perm
      (List.range' 1 s.playing_houses.length)) :
    ((applyStep s (.DoranChooseTrack opp) (.DoranChooseTrack t)).playing_houses.map
        (fun h => trackPos
          (applyStep s (.DoranChooseTrack opp) (.DoranChooseTrack t)) t h)).Perm
      (List.range' 1 s.playing_houses.length) := by
  set N := s.playing_houses.length with hN
  set old := trackPos s t opp with hold
  set s2 := s.playing_houses.foldl
      (fun (st : GameState) h =>
        if old < trackPos st t h then
          setTrackPos t h (trackPos st t h - 1) st
        else st) s with hs2
  set s3 := setTrackPos t opp N s2 with hs3
  set s4 := (if t = Track.IronThrone then
      { s3 with turn_order := (sortBy
        (fun a b => decide ((s3.house a).iron_throne ≤ (s3.house b).iron_throne))
        s3.playing_houses) }
    else s3) with hs4
  have harm : applyStep s (.DoranChooseTrack opp) (.DoranChooseTrack t)
      = finalize_combat s4 := rfl
  have h4h : s4.houses = s3.houses := by rw [hs4]; split <;> rfl
  have h4p : s4.playing_houses = s3.playing_houses := by rw [hs4]; split <;> rfl
  have hfold_p : ∀ (l : List HouseName) (st : GameState),
      (l.foldl (fun (st : GameState) h =>
        if old < trackPos st t h then
          setTrackPos t h (trackPos st t h - 1) st
        else st) st).playing_houses = st.playing_houses := by
    intro l
    induction l with
    | nil => intro st; rfl
    | cons x rest ih =>
      intro st
      rw [List.foldl_cons, ih]
      split
      · rw [setTrackPos_playing]
      · rfl
  have h2p : s2.playing_houses = s.playing_houses := by
    rw [hs2]; exact hfold_p _ _
  have h3p : s3.playing_houses = s.playing_houses := by
    rw [hs3, setTrackPos_playing, h2p]
  have hndmap : (s.playing_houses.map (fun h => trackPos s t h)).Nodup :=
    hperm.nodup_iff.mpr (List.nodup_range' ..)
  have hres : ∀ h, trackPos (finalize_combat s4) t h = trackPos s3 t h :=
    fun h => trackPos_of_houses_eq ((finalize_combat_houses s4).1.trans h4h) t h
  have hpos3 : ∀ h, h ∈ s.playing_houses →
      trackPos s3 t h
        = (fun p => if p = old then N else if old < p then p - 1 else p)
            (trackPos s t h) := by
    intro h hh
    by_cases hop : h = opp
    · subst hop
      rw [hs3, trackPos_setTrackPos_same]
      simp [hold]
    · have hne : trackPos s t h ≠ old := by
        intro heq
        exact hop (List.inj_on_of_nodup_map hndmap hh hmem heq)
      rw [hs3, trackPos_setTrackPos_other t opp h N s2 hop, hs2,
        demote_fold_spec t old s.playing_houses s hnd h]
      simp only [hh, true_and, hne, if_false]
  have hmapeq : s.playing_houses.map (fun h => trackPos (finalize_combat s4) t h)
      = (s.playing_houses.map (fun h => trackPos s t h)).map
        (fun p => if p = old then N else if old < p then p - 1 else p) := by
    rw [List.map_map]
    apply List.map_congr_left
    intro h hh
    show trackPos (finalize_combat s4) t h = _
    rw [hres h, hpos3 h hh]
    rfl
  have holdmem : old ∈ List.range' 1 N := by
    refine hperm.mem_iff.mp ?_
    exact List.mem_map.mpr ⟨opp, hmem, rfl⟩
  rw [List.mem_range'_1] at holdmem
  have hbound1 : 1 ≤ old := holdmem.1
  have hbound2 : old ≤ N := by omega
  rw [harm, (finalize_combat_houses s4).2, h4p, h3p, hmapeq]
  exact (hperm.map _).trans (map_demote_perm N old hbound1 hbound2)

end GoT

namespace GoT

theorem range_map_getD {α : Type} (n i : Nat) (g : Nat → α) (d : α)
    (hi : i < n) : (((List.range n).map g).getD i d) = g i := by
  rw [List.getD, List.get?_eq_getElem?, List.getElem?_map, List.getElem?_range hi]
  rfl


end GoT

namespace GoT

/-- The defender's combat total decomposes as the garrison-free total plus
the garrison strength whenever the garrison's recorded house is the
defender (engine.rs resolve_combat_final, garrison_str term). -/
theorem combat_totals_garrison (s : GameState) (c : CombatState) (g : Garrison)
    (hg : s.garrisons c.area_id = some g) (hh : g.house = c.defender) :
    (combat_totals s c).2
      = (combat_totals { s with garrisons := fun _ => none } c).2
        + (g.strength : Int) := by
  have harea : ({ s with garrisons := fun _ => none } : GameState).area c.area_id
      = s.area c.area_id := rfl
  have hsup : support_strengths { s with garrisons := fun _ => none }
      c.support_decisions = support_strengths s c.support_decisions := rfl
  have hhouse : ({ s with garrisons := fun _ => none } : GameState).house
      c.defender = s.house c.defender := rfl
  unfold combat_totals
  simp only [hg, hh, if_pos rfl, if_true, harea, hsup, hhouse]
  ring

end GoT

namespace GoT

-- ── Claim theorems ─────────────────────────────────────────────────────

/-- C1: the claim says a mismatched action must be rejected before any
mutation, with the state (pending slot included) left equal to the state
before the call.  The code instead takes the pending decision out of the
slot, lets the mismatched pair fall through the match's catch-all arm, and
then advances the state machine: from a planning state whose pending
decision is PlaceOrders for Stark, a shape-mismatched Bid action comes back
with a different pending decision (the messenger-raven offer) and with the
raven flag flipped — the state was mutated, not left unchanged. -/
theorem C1_mismatched_action_mutates_state :
    planningIdleState.pending = some (.PlaceOrders .Stark)
    ∧ planningIdleState.messenger_raven_used = false
    ∧ (apply_action 20 planningIdleState (.Bid 0)).pending
        = some (.MessengerRaven .Lannister)
    ∧ (apply_action 20 planningIdleState (.Bid 0)).messenger_raven_used
        = true := by
  refine ⟨rfl, rfl, by decide, by decide⟩

/-- C2 (counterexample): a pending Patchface discard decision carries the
opponent's full hand in its payload, and pending_involves reports every
house as involved in it, so the decision — hand contents included — is
copied into every player's view: Stark's view of this state contains
Lannister's entire unplayed hand. -/
theorem C2_pending_leaks_opponent_hand :
    (player_view patchfaceState .Stark).viewer = .Stark
    ∧ (patchfaceState.houses .Lannister).hand = [.TywinLannister]
    ∧ (player_view patchfaceState .Stark).pending
        = some (.PatchfaceDiscard .Lannister [.TywinLannister]) := by
  refine ⟨rfl, rfl, by decide⟩

/-- C2 (amended): for a viewer X, an area i that X holds with an order, an
area j held by a different house Y, unrevealed orders, and a replacement
hand of the same length for Y: the view keeps X's own hand and X's own
order (both in my_orders and in the area view), hides Y's order from the
area view and from my_orders, and — apart from the pending-decision payload
exhibited by the counterexample — does not depend on Y's hand contents at
all. -/
theorem C2_view_visibility (s : GameState) (X Y : HouseName) (i j : AreaId)
    (oX : Order) (hand2 : List HouseCardId)
    (hYX : Y ≠ X)
    (hi : i < s.areas.length) (hiX : (s.area i).house = some X)
    (hoX : (s.area i).order = some oX)
    (hj : j < s.areas.length) (hjY : (s.area j).house = some Y)
    (hrev : orders_are_revealed s = false)
    (hlen : hand2.length = ((s.houses Y).hand).length) :
    (player_view s X).my_hand = (s.houses X).hand
    ∧ (i, oX) ∈ (player_view s X).my_orders
    ∧ ((player_view s X).areas.getD i
        ⟨0, [], none, none, false, false⟩).order = some oX
    ∧ ((player_view s X).areas.getD j
        ⟨0, [], none, none, false, false⟩).order = none
    ∧ (∀ o2 : Order, (j, o2) ∉ (player_view s X).my_orders)
    ∧ player_view (withHand s Y hand2) X = player_view s X := by
  refine ⟨rfl, ?_, ?_, ?_, ?_, ?_⟩
  · show (i, oX) ∈ (if !orders_are_revealed s then _ else [])
    rw [hrev]
    simp only [Bool.not_false, if_true]
    apply List.mem_filterMap.mpr
    exact ⟨i, List.mem_range.mpr hi, by rw [hiX]; simp [hoX]⟩
  · show ((((List.range s.areas.length).map (fun i2 =>
        areaViewFor (orders_are_revealed s) X i2 (s.area i2))).getD i _)).order
        = some oX
    rw [range_map_getD _ _ _ _ hi]
    unfold areaViewFor
    simp only [hiX, hrev]
    simp [hoX]
  · show ((((List.range s.areas.length).map (fun i2 =>
        areaViewFor (orders_are_revealed s) X i2 (s.area i2))).getD j _)).order
        = none
    rw [range_map_getD _ _ _ _ hj]
    unfold areaViewFor
    have hne : (s.area j).house ≠ some X := by rw [hjY]; simp [hYX]
    simp [hjY, hrev, hne, hYX]
  · intro o2 hmem2
    have hmem3 : (j, o2) ∈ (if !orders_are_revealed s then
        (List.range s.areas.length).filterMap (fun i2 =>
          if (s.area i2).house = some X then
            ((s.area i2).order).map (fun o => (i2, o))
          else none)
        else []) := hmem2
    rw [hrev] at hmem3
    simp only [Bool.not_false, if_true] at hmem3
    obtain ⟨k, _, hk⟩ := List.mem_filterMap.mp hmem3
    by_cases hkX : (s.area k).house = some X
    · rw [if_pos hkX] at hk
      cases ho : (s.area k).order with
      | none =>
        rw [ho] at hk
        exact Option.noConfusion hk
      | some o3 =>
        rw [ho] at hk
        rw [show Option.map (fun o => (k, o)) (some o3) = some (k, o3) from rfl]
          at hk
        simp only [Option.some.injEq, Prod.mk.injEq] at hk
        obtain ⟨hkj, _⟩ := hk
        subst hkj
        rw [hjY] at hkX
        exact hYX (Option.some.inj hkX)
    · rw [if_neg hkX] at hk
      exact Option.noConfusion hk
  · have hXY : X ≠ Y := fun he => hYX he.symm
    unfold player_view
    simp only [PlayerView.mk.injEq]
    refine ⟨trivial, rfl, rfl, rfl, rfl, rfl, rfl, ?_, rfl, rfl, rfl, rfl,
      rfl, rfl, rfl, rfl, rfl, ?_, rfl⟩
    · funext h
      by_cases hhY : h = Y
      · subst hhY
        simp [withHand, GameState.updateHouse, GameState.house, hlen,
          PublicHouseInfo.mk.injEq]
      · simp [withHand, GameState.updateHouse, GameState.house, hhY]
    · simp [withHand, GameState.updateHouse, GameState.house, hXY]

/-- C2 (witness): the amended theorem applied at the concrete planning
board c2ViewState with viewer Stark and other house Lannister. -/
theorem C2_view_visibility_witness :
    (player_view c2ViewState .Stark).my_hand = (c2ViewState.houses .Stark).hand
    ∧ (WINTERFELL, (⟨.Defense, 1, false, .Stark, 3⟩ : Order))
        ∈ (player_view c2ViewState .Stark).my_orders
    ∧ ((player_view c2ViewState .Stark).areas.getD WINTERFELL
        ⟨0, [], none, none, false, false⟩).order
        = some ⟨.Defense, 1, false, .Stark, 3⟩
    ∧ ((player_view c2ViewState .Stark).areas.getD MOAT_CAILIN
        ⟨0, [], none, none, false, false⟩).order = none
    ∧ (∀ o2 : Order, (MOAT_CAILIN, o2) ∉ (player_view c2ViewState .Stark).my_orders)
    ∧ player_view (withHand c2ViewState .Lannister []) .Stark
        = player_view c2ViewState .Stark :=
  C2_view_visibility c2ViewState .Stark .Lannister WINTERFELL MOAT_CAILIN
    ⟨.Defense, 1, false, .Stark, 3⟩ [] (by decide) (by decide) (by decide)
    (by decide) (by decide) (by decide) (by decide) (by decide)

/-- C3: the claim says the defender's surviving units retreat into the
chosen destination.  In the code the Retreat arm of apply_action removes
units of the retreating house from the contested area but never adds them
to the destination or back to the pool: after winning at Winterfell the
engine posts a Retreat decision listing two surviving Stark footmen, and
once the retreat to Karhold is applied, Karhold is empty, no Stark unit is
anywhere on the board, and Stark's unbuilt footman pool is unchanged — the
surviving units simply vanish. -/
theorem C3_retreat_loses_surviving_units :
    (advance 40 retreatState).pending
      = some (.Retreat .Stark [⟨.Footman, .Stark, false⟩, ⟨.Footman, .Stark, false⟩]
          WINTERFELL [KARHOLD, THE_STONY_SHORE, WHITE_HARBOR, MOAT_CAILIN])
    ∧ ((apply_action 40 (advance 40 retreatState) (.Retreat KARHOLD)).area
        KARHOLD).units = []
    ∧ unitsOfHouseOnBoard
        (apply_action 40 (advance 40 retreatState) (.Retreat KARHOLD)) .Stark = 0
    ∧ ((apply_action 40 (advance 40 retreatState) (.Retreat KARHOLD)).houses
        .Stark).available_units.footmen = 8 := by
  refine ⟨by decide, by decide, by decide, by decide⟩

/-- C4: the claim says apply performs no automatic phase transitions and
the driver must call advance afterward.  In the code apply_action itself
calls advance when no new decision is pending: answering the raven offer in
round 10 runs the whole remaining game inside the single apply call
(action phase, cleanup, tiebreaker — the returned state is in a later round
with a winner), and a subsequent driver advance on a state with a pending
decision is a no-op. -/
theorem C4_apply_action_auto_advances :
    ravenState.phase = .Planning
    ∧ ravenState.round = 10
    ∧ (apply_action 30 ravenState (.MessengerRaven none)).phase = .Action
    ∧ (apply_action 30 ravenState (.MessengerRaven none)).round = 11
    ∧ (apply_action 30 ravenState (.MessengerRaven none)).winner = some .Stark
    ∧ (∀ (fuel : Nat) (s : GameState), s.pending.isSome = true →
        advance fuel s = s) := by
  refine ⟨rfl, rfl, by decide, by decide, by decide, advance_pending_noop⟩

/-- C4 (counterexample): after a matching PlaceOrders action the engine
does not stop with the pending slot cleared — the same apply call chains
into the next decision and returns with a brand-new pending decision (the
raven offer) already posted. -/
theorem C4_apply_chains_to_next_decision :
    planningIdleState.pending = some (.PlaceOrders .Stark)
    ∧ (apply_action 20 planningIdleState (.PlaceOrders [])).pending
        = some (.MessengerRaven .Lannister) :=
  ⟨rfl, by decide⟩

end GoT

namespace GoT

/-- C5: the claim says the blade is one-per-game ("once used, never offered
again").  What the code actually implements: during Resolution the offer is
made exactly when the Fiefdoms-track top holder is a combatant and the
valyrian_steel_blade_used flag is clear — no offer while the flag is set,
and no offer when the flag is clear but the holder is neither attacker nor
defender — but cleanup_round clears the flag at the end of every round, so
the gating is per-round, not game-wide. -/
theorem C5_blade_offer_gating (fuel fuel2 fuel3 : Nat) (s t u : GameState)
    (c d e : CombatState) (hh hh2 : HouseName)
    (hp : s.pending = none) (hw : s.winner = none) (hc : s.combat = some c)
    (hphase : c.phase = .Resolution) (hused : s.valyrian_steel_blade_used = false)
    (hcomb : find_track_holder s .Fiefdoms = c.attacker
      ∨ find_track_holder s .Fiefdoms = c.defender)
    (hp2 : t.pending = none) (hw2 : t.winner = none) (hc2 : t.combat = some d)
    (hphase2 : d.phase = .Resolution)
    (hused2 : t.valyrian_steel_blade_used = true)
    (hp3 : u.pending = none) (hw3 : u.winner = none) (hc3 : u.combat = some e)
    (hphase3 : e.phase = .Resolution)
    (hused3 : u.valyrian_steel_blade_used = false)
    (hnc1 : find_track_holder u .Fiefdoms ≠ e.attacker)
    (hnc2 : find_track_holder u .Fiefdoms ≠ e.defender) :
    (advance_combat (fuel + 1) s).pending
      = some (.UseValyrianBlade (find_track_holder s .Fiefdoms))
    ∧ (advance_combat (fuel2 + 1) t).pending ≠ some (.UseValyrianBlade hh)
    ∧ (advance_combat (fuel3 + 1) u).pending ≠ some (.UseValyrianBlade hh2)
    ∧ (∀ w : GameState, (cleanup_round w).valyrian_steel_blade_used = false) := by
  refine ⟨?_, ?_, ?_, cleanup_round_blade⟩
  · simp only [advance_combat, hp, hw, hc, hphase, hused]
    simp [hcomb]
  · simp only [advance_combat, hp2, hw2, hc2, hphase2, hused2,
      Option.isSome_none, Bool.or_self, Bool.false_eq_true, if_false,
      Bool.not_true, Bool.false_and, false_and, and_self]
    exact advance_combat_post_no_blade fuel2 _ _ hh rfl rfl rfl rfl
  · simp only [advance_combat, hp3, hw3, hc3, hphase3, hused3,
      Option.isSome_none, Bool.or_self, Bool.false_eq_true, if_false,
      Bool.not_false, true_and, hnc1, hnc2, or_self]
    exact advance_combat_post_no_blade fuel3 _ _ hh2 rfl rfl rfl rfl

/-- C5 (witness): the gating theorem at the Winterfell Resolution combat
with the flag clear (offer posted to the Fiefdoms leader Stark), at the
same combat with the flag set (no offer), and at a King's Landing
Resolution combat between Lannister and Baratheon where the flag is clear
but the Fiefdoms leader Stark is not a combatant (no offer either). -/
theorem C5_blade_offer_gating_witness :
    (advance_combat 6 bladeReofferState).pending
      = some (.UseValyrianBlade (find_track_holder bladeReofferState .Fiefdoms))
    ∧ (advance_combat 6 bladeSkipState).pending
        ≠ some (.UseValyrianBlade .Stark)
    ∧ (advance_combat 6 bladeNonHolderState).pending
        ≠ some (.UseValyrianBlade .Stark)
    ∧ (∀ w : GameState, (cleanup_round w).valyrian_steel_blade_used = false) :=
  C5_blade_offer_gating 5 5 5 bladeReofferState bladeSkipState
    bladeNonHolderState bladeReofferCombat bladeReofferCombat
    bladeNonHolderCombat .Stark .Stark rfl rfl rfl rfl rfl (by decide)
    rfl rfl rfl rfl rfl rfl rfl rfl rfl rfl (by decide) (by decide)

/-- C5 (counterexample): from an end-of-round state in which the blade has
already been used, the engine's own round boundary (advance on the Done
sub-phase runs cleanup_round and continues from the cleaned state) clears
the used flag, and a Resolution combat in the following round offers the
blade again — refuting "once used it is never offered again for the
remainder of the game". -/
theorem C5_blade_reoffered_after_use :
    bladeRoundEndState.valyrian_steel_blade_used = true
    ∧ bladeRoundEndState.phase = .Action
    ∧ bladeRoundEndState.action_sub_phase = .Done
    ∧ (∀ fuel : Nat, advance (fuel + 2) bladeRoundEndState
        = advance fuel (cleanup_round bladeRoundEndState))
    ∧ (cleanup_round bladeRoundEndState).valyrian_steel_blade_used = false
    ∧ (cleanup_round bladeRoundEndState).round = 6
    ∧ bladeReofferState.round = 6
    ∧ bladeReofferState.valyrian_steel_blade_used = false
    ∧ (advance_combat 6 bladeReofferState).pending
        = some (.UseValyrianBlade .Stark) := by
  refine ⟨rfl, rfl, rfl,
    fun fuel => advance_done_cleanup fuel _ rfl rfl rfl rfl (by decide),
    by decide, by decide, rfl, rfl, by decide⟩

/-- C6: the claim says track positions of the playing houses always form a
permutation of 1..N.  What holds in the code: a 6-player setup does start
every track as a permutation of 1..6, a completed track auction reassigns
the auctioned track to a permutation of 1..N, and the Doran demote-to-
bottom effect maps a permutation of 1..N to a permutation of 1..N on the
chosen track — but setups with fewer than six players keep the 6-player
position values of the present houses, which is not a permutation of 1..N
(see the counterexample). -/
theorem C6_track_positions_permutation (s : GameState) (b : BiddingState)
    (t : Track) (opp : HouseName)
    (hb : s.bidding = some b) (ht : b.current_track = some t)
    (hbo : b.bid_order.Perm s.playing_houses)
    (hnd : s.playing_houses.Nodup)
    (hmem : opp ∈ s.playing_houses)
    (hperm : (s.playing_houses.map (fun h => trackPos s t h)).Perm
      (List.range' 1 s.playing_houses.length)) :
    (∀ t2 : Track, (((create_initial_state 6 42).playing_houses.map
        (fun h => trackPos (create_initial_state 6 42) t2 h)).Perm
      (List.range' 1 (create_initial_state 6 42).playing_houses.length)))
    ∧ ((resolve_track_bidding s).playing_houses.map
        (fun h => trackPos (resolve_track_bidding s) t h)).Perm
      (List.range' 1 s.playing_houses.length)
    ∧ ((applyStep s (.DoranChooseTrack opp) (.DoranChooseTrack t)).playing_houses.map
        (fun h => trackPos
          (applyStep s (.DoranChooseTrack opp) (.DoranChooseTrack t)) t h)).Perm
      (List.range' 1 s.playing_houses.length) := by
  refine ⟨fun t2 => ?_, resolve_track_bidding_perm s b t hb ht hbo hnd,
    doran_demote_track_perm s t opp hmem hnd hperm⟩
  cases t2 <;> decide

/-- C6 (witness): the permutation theorem at a finished three-house
Fiefdoms auction, with Lannister as the Doran demote target. -/
theorem C6_track_positions_permutation_witness :
    (∀ t2 : Track, (((create_initial_state 6 42).playing_houses.map
        (fun h => trackPos (create_initial_state 6 42) t2 h)).Perm
      (List.range' 1 (create_initial_state 6 42).playing_houses.length)))
    ∧ ((resolve_track_bidding c6BidState).playing_houses.map
        (fun h => trackPos (resolve_track_bidding c6BidState) .Fiefdoms h)).Perm
      (List.range' 1 c6BidState.playing_houses.length)
    ∧ ((applyStep c6BidState (.DoranChooseTrack .Lannister)
          (.DoranChooseTrack .Fiefdoms)).playing_houses.map
        (fun h => trackPos
          (applyStep c6BidState (.DoranChooseTrack .Lannister)
            (.DoranChooseTrack .Fiefdoms)) .Fiefdoms h)).Perm
      (List.range' 1 c6BidState.playing_houses.length) :=
  C6_track_positions_permutation c6BidState c6Bidding .Fiefdoms .Lannister
    rfl rfl (by decide) (by decide) (by decide) (by decide)

/-- C6 (counterexample): the three-player setup filters the fixed 6-player
house table to the present houses but keeps their 6-player track values, so
on the Fiefdoms track the initial positions of the three playing houses are
not a permutation of 1..3. -/
theorem C6_initial_positions_not_permutation :
    ¬ (((create_initial_state 3 42).playing_houses.map
        (fun h => trackPos (create_initial_state 3 42) .Fiefdoms h)).Perm
      (List.range' 1 (create_initial_state 3 42).playing_houses.length)) := by
  decide

end GoT

namespace GoT

/-- C7: a Reconcile step removes the chosen unit from the area (one fewer
unit there), returns it to the owner's unbuilt pool (that unit type's count
rises by one), and then re-scans all playing houses; when the step leaves
no further Reconcile decision pending, check_supply_violation is false for
every playing house. -/
theorem C7_reconcile_step_and_completion (s : GameState) (house : HouseName)
    (aid : AreaId) (idx : Nat)
    (hidx : idx < (s.area aid).units.length) :
    ((apply_reconcile s house aid idx).area aid).units.length
        = (s.area aid).units.length - 1
    ∧ ((apply_reconcile s house aid idx).house house).available_units.get
        ((s.area aid).units.getD idx ⟨.Footman, house, false⟩).unit_type
      = (s.house house).available_units.get
          ((s.area aid).units.getD idx ⟨.Footman, house, false⟩).unit_type + 1
    ∧ ((apply_reconcile s house aid idx).pending = none →
        ∀ h ∈ (apply_reconcile s house aid idx).playing_houses,
          check_supply_violation (apply_reconcile s house aid idx) h = false) := by
  have haid : aid < s.areas.length := by
    by_contra hcon
    have hd : s.area aid = AreaState.default :=
      List.getD_eq_default _ _ (Nat.le_of_not_lt hcon)
    rw [hd] at hidx
    exact Nat.not_lt_zero idx hidx
  unfold apply_reconcile
  rw [if_pos hidx]
  simp only []
  set u := (s.area aid).units.getD idx ⟨.Footman, house, false⟩ with hu
  set s2 := (s.setArea aid
      { s.area aid with units := (s.area aid).units.eraseIdx idx }).updateHouse house
      (fun p => { p with available_units := (p.available_units.setCount u.unit_type
        (p.available_units.get u.unit_type + 1)) }) with hs2
  have harea : s2.area aid
      = { s.area aid with units := (s.area aid).units.eraseIdx idx } := by
    show ((s.areas.set aid _).getD aid AreaState.default) = _
    rw [List.getD, List.get?_eq_getElem?, List.getElem?_set_eq_of_lt _ haid]
    rfl
  have hlen : (s2.area aid).units.length = (s.area aid).units.length - 1 := by
    rw [harea]
    show ((s.area aid).units.eraseIdx idx).length = _
    have h1 : ((s.area aid).units.eraseIdx idx).length + 1
        = (s.area aid).units.length := List.length_eraseIdx_add_one hidx
    omega
  have hhou : (s2.house house).available_units.get u.unit_type
      = (s.house house).available_units.get u.unit_type + 1 := by
    show ((if house = house then _ else _ : HouseProfile)).available_units.get _ = _
    rw [if_pos rfl]
    show (((s.houses house).available_units).setCount u.unit_type _).get
      u.unit_type = _
    rw [unitPool_get_setCount]
    rfl
  cases hrec : reconcilePendingFor s2 s2.playing_houses with
  | some p =>
    simp only [hrec]
    refine ⟨hlen, hhou, ?_⟩
    intro hcon
    simp at hcon
  | none =>
    simp only [hrec]
    exact ⟨hlen, hhou, fun _ h hmem =>
      reconcilePendingFor_none s2 s2.playing_houses hrec h hmem⟩

/-- C7 (witness): one Reconcile step on the Winterfell three-footman
over-supply state, removing the third footman. -/
theorem C7_reconcile_step_and_completion_witness :
    ((apply_reconcile reconcileState .Stark WINTERFELL 2).area
        WINTERFELL).units.length
        = (reconcileState.area WINTERFELL).units.length - 1
    ∧ ((apply_reconcile reconcileState .Stark WINTERFELL 2).house
        .Stark).available_units.get
        ((reconcileState.area WINTERFELL).units.getD 2
          ⟨.Footman, .Stark, false⟩).unit_type
      = (reconcileState.house .Stark).available_units.get
          ((reconcileState.area WINTERFELL).units.getD 2
            ⟨.Footman, .Stark, false⟩).unit_type + 1
    ∧ ((apply_reconcile reconcileState .Stark WINTERFELL 2).pending = none →
        ∀ h ∈ (apply_reconcile reconcileState .Stark WINTERFELL 2).playing_houses,
          check_supply_violation
            (apply_reconcile reconcileState .Stark WINTERFELL 2) h = false) :=
  C7_reconcile_step_and_completion reconcileState .Stark WINTERFELL 2 (by decide)

/-- C8: at setup the neutral garrisons are stored with placeholder owning
houses — King's Landing as ⟨Baratheon, 5⟩ and The Eyrie as ⟨Stark, 6⟩ — and
the combat formula adds a garrison's strength to the defender's total
exactly when the recorded house equals the defender: in the concrete
King's Landing combat the totals are (2, 6) with Baratheon defending and
(2, 1) with any other defender. -/
theorem C8_placeholder_garrisons_count_for_defender (s : GameState)
    (c : CombatState) (g : Garrison)
    (hg : s.garrisons c.area_id = some g) (hh : g.house = c.defender) :
    (create_initial_state 6 42).garrisons KINGS_LANDING = some ⟨.Baratheon, 5⟩
    ∧ (create_initial_state 6 42).garrisons THE_EYRIE = some ⟨.Stark, 6⟩
    ∧ (combat_totals s c).2
        = (combat_totals { s with garrisons := fun _ => none } c).2
          + (g.strength : Int)
    ∧ combat_totals kingsLandingState kingsLandingCombat = (2, 6)
    ∧ combat_totals kingsLandingState kingsLandingCombatOther = (2, 1) := by
  refine ⟨by decide, by decide, combat_totals_garrison s c g hg hh,
    by decide, by decide⟩

/-- C8 (witness): the garrison decomposition at the concrete King's
Landing combat with Baratheon defending behind the strength-5 garrison. -/
theorem C8_placeholder_garrisons_count_for_defender_witness :
    (create_initial_state 6 42).garrisons KINGS_LANDING = some ⟨.Baratheon, 5⟩
    ∧ (create_initial_state 6 42).garrisons THE_EYRIE = some ⟨.Stark, 6⟩
    ∧ (combat_totals kingsLandingState kingsLandingCombat).2
        = (combat_totals { kingsLandingState with garrisons := fun _ => none }
            kingsLandingCombat).2 + ((5 : Nat) : Int)
    ∧ combat_totals kingsLandingState kingsLandingCombat = (2, 6)
    ∧ combat_totals kingsLandingState kingsLandingCombatOther = (2, 1) :=
  C8_placeholder_garrisons_count_for_defender kingsLandingState
    kingsLandingCombat ⟨.Baratheon, 5⟩ (by decide) rfl

end GoT

namespace GoT

/-- C9: in the Cards sub-phase an empty-handed combatant is given the fixed
EddardStark placeholder with no decision posted — an empty-handed attacker
receives it and the engine moves on to the defender (here with a nonempty
hand, so a SelectHouseCard decision for the defender is posted), and an
empty-handed defender (attacker's card already chosen) likewise receives it
in a single silent step — and final resolution counts the placeholder's
real attributes: EddardStark is strength 4 with 2 swords, and the concrete
placeholder-vs-SalladhorSaan combat resolves to totals (6, 3). -/
theorem C9_empty_hand_placeholder_card (fuel fuel2 : Nat) (s s2 : GameState)
    (c c2 : CombatState) (k : HouseCardId)
    (hp : s.pending = none) (hw : s.winner = none) (hc : s.combat = some c)
    (hphase : c.phase = .Cards) (hac : c.attacker_card = none)
    (hhand : (s.houses c.attacker).hand = []) (hdc : c.defender_card = none)
    (hdh : (s.houses c.defender).hand ≠ [])
    (hp2 : s2.pending = none) (hw2 : s2.winner = none)
    (hc2 : s2.combat = some c2) (hphase2 : c2.phase = .Cards)
    (hac2 : c2.attacker_card = some k) (hdc2 : c2.defender_card = none)
    (hdhand2 : (s2.houses c2.defender).hand = []) :
    (advance_combat (fuel + 2) s).combat
        = some { c with attacker_card := some .EddardStark }
    ∧ (advance_combat (fuel + 2) s).pending
        = some (.SelectHouseCard c.defender (s.houses c.defender).hand)
    ∧ advance_combat (fuel2 + 1) s2
        = advance_combat fuel2
          { s2 with combat := some { c2 with defender_card := some .EddardStark } }
    ∧ get_house_card .EddardStark = ⟨.EddardStark, .Stark, 4, 2, 0⟩
    ∧ combat_totals placeholderResolveState placeholderResolveCombat = (6, 3) := by
  have step1 : advance_combat (fuel + 2) s
      = advance_combat (fuel + 1)
        { s with combat := some { c with attacker_card := some .EddardStark } } := by
    simp only [advance_combat, hp, hw, hc, hphase, hac, GameState.house, hhand]
    rfl
  have main : (advance_combat (fuel + 2) s).combat
        = some { c with attacker_card := some .EddardStark }
      ∧ (advance_combat (fuel + 2) s).pending
        = some (.SelectHouseCard c.defender (s.houses c.defender).hand) := by
    rw [step1]
    simp only [advance_combat, hphase, hac, hdc, GameState.house, hhand, hp, hw]
    simp [hdh]
  have defstep : advance_combat (fuel2 + 1) s2
      = advance_combat fuel2
        { s2 with combat := some { c2 with defender_card := some .EddardStark } } := by
    simp only [advance_combat, hp2, hw2, hc2, hphase2, hac2, hdc2,
      GameState.house, hdhand2]
    rfl
  exact ⟨main.1, main.2, defstep, by decide, by decide⟩

/-- C9 (witness): the placeholder theorem at the Moat Cailin combat whose
attacker Lannister has an empty hand (defender Baratheon holds Salladhor
Saan), and at its variant where the attacker's card is already chosen and
the defender Baratheon is the empty-handed combatant. -/
theorem C9_empty_hand_placeholder_card_witness :
    (advance_combat 2 emptyHandState).combat
        = some { emptyHandCombat with attacker_card := some .EddardStark }
    ∧ (advance_combat 2 emptyHandState).pending
        = some (.SelectHouseCard .Baratheon
            (emptyHandState.houses .Baratheon).hand)
    ∧ advance_combat 1 emptyHandDefenderState
        = advance_combat 0
          { emptyHandDefenderState with
            combat := some (
              { emptyHandDefenderCombat with
                defender_card := some .EddardStark }) }
    ∧ get_house_card .EddardStark = ⟨.EddardStark, .Stark, 4, 2, 0⟩
    ∧ combat_totals placeholderResolveState placeholderResolveCombat = (6, 3) :=
  C9_empty_hand_placeholder_card 0 0 emptyHandState emptyHandDefenderState
    emptyHandCombat emptyHandDefenderCombat .TywinLannister rfl rfl rfl
    rfl rfl (by decide) rfl (by decide) rfl rfl rfl rfl rfl rfl (by decide)

/-- C10: resolving a Wildling Attack Westeros card with the wildling threat
at 0 returns the state unchanged — no bidding state, no pending decision,
and every other component exactly as before. -/
theorem C10_wildling_attack_noop_at_zero_threat (fuel : Nat) (s : GameState)
    (card : WesterosCard)
    (hthreat : s.wildling_threat = 0) (hcard : card.card_type = .WildlingAttack) :
    resolve_westeros_card fuel s card = s := by
  cases fuel with
  | zero => rfl
  | succ n =>
    simp only [resolve_westeros_card, hcard, begin_wildling_attack, hthreat,
      if_pos]

/-- C10 (witness): the no-op theorem at the concrete threat-0 Westeros
state and a Wildling Attack card. -/
theorem C10_wildling_attack_noop_at_zero_threat_witness :
    resolve_westeros_card 5 wildlingNoopState ⟨3, .WildlingAttack, false⟩
      = wildlingNoopState :=
  C10_wildling_attack_noop_at_zero_threat 5 wildlingNoopState
    ⟨3, .WildlingAttack, false⟩ rfl rfl

end GoT
